import Mathlib

/-!
Verification development for the Feedback microservice (`main.py` plus its
Pydantic models).  The definitions below are shallow embeddings of the
functions of the source: pure helpers become Lean functions, SQL predicates
become executable Boolean predicates over embedded rows, and the database
state is passed explicitly.  Machine strings are `String` / `List Char`,
byte strings are `List Nat`, timestamps are `Nat` (microseconds).
-/

set_option maxHeartbeats 1000000

namespace Feedback

/-! ## Decimal rendering and parsing

The function `encode_cursor` calls `str(offset)` and `decode_cursor` calls
`int(...)`.  We embed the decimal rendering of a natural number and the
integer parse (sign, digit run; the underscore-separator extension of the
parser is not modelled, it is unreachable from the encoder). -/

/-- Little-endian decimal digits, with explicit fuel so that the function
is structurally recursive (hence evaluable inside proofs by `decide`). -/
def toDecRevAux : Nat → Nat → List Nat
  | 0, _ => []
  | fuel + 1, n => if n = 0 then [] else n % 10 :: toDecRevAux fuel (n / 10)

/-- Little-endian decimal digits of `n` (empty for 0). -/
def toDecRev (n : Nat) : List Nat := toDecRevAux n n

/-- Value of a little-endian digit list. -/
def ofDecRev : List Nat → Nat
  | [] => 0
  | d :: ds => d + 10 * ofDecRev ds

/-- Byte string of `str(n)` for a non-negative integer `n` (ASCII codes). -/
def pyStrNat (n : Nat) : List Nat :=
  if n = 0 then [48] else (toDecRev n).reverse.map (· + 48)

theorem ofDecRev_toDecRevAux : ∀ (fuel n : Nat), n ≤ fuel →
    ofDecRev (toDecRevAux fuel n) = n := by
  intro fuel
  induction fuel with
  | zero => intro n h; interval_cases n; rfl
  | succ fuel ih =>
    intro n h
    rw [toDecRevAux]
    by_cases h0 : n = 0
    · simp [h0, ofDecRev]
    · simp only [h0, if_false, ofDecRev]
      rw [ih (n / 10) (by omega)]
      omega

theorem ofDecRev_toDecRev (n : Nat) : ofDecRev (toDecRev n) = n :=
  ofDecRev_toDecRevAux n n (Nat.le_refl n)

theorem toDecRevAux_digits : ∀ (fuel n : Nat), ∀ d ∈ toDecRevAux fuel n, d < 10 := by
  intro fuel
  induction fuel with
  | zero => intro n d hd; simp [toDecRevAux] at hd
  | succ fuel ih =>
    intro n d hd
    rw [toDecRevAux] at hd
    by_cases h0 : n = 0
    · simp [h0] at hd
    · simp only [h0, if_false, List.mem_cons] at hd
      rcases hd with rfl | hd
      · omega
      · exact ih (n / 10) d hd

theorem toDecRev_digits (n : Nat) : ∀ d ∈ toDecRev n, d < 10 :=
  toDecRevAux_digits n n

theorem toDecRev_ne_nil (n : Nat) (h : n ≠ 0) : toDecRev n ≠ [] := by
  unfold toDecRev
  cases n with
  | zero => exact absurd rfl h
  | succ m => rw [toDecRevAux]; simp [h]

theorem pyStrNat_bounds (n : Nat) : ∀ b ∈ pyStrNat n, 48 ≤ b ∧ b ≤ 57 := by
  intro b hb
  unfold pyStrNat at hb
  by_cases h : n = 0
  · simp [h] at hb; omega
  · simp only [h, if_false, List.mem_map, List.mem_reverse] at hb
    obtain ⟨d, hd, rfl⟩ := hb
    have := toDecRev_digits n d hd
    omega

theorem pyStrNat_ne_nil (n : Nat) : pyStrNat n ≠ [] := by
  unfold pyStrNat
  by_cases h : n = 0
  · simp [h]
  · simp only [h, if_false, ne_eq, List.map_eq_nil_iff, List.reverse_eq_nil_iff]
    exact toDecRev_ne_nil n h

/-- Folding decimal digits from the left, as the parser does. -/
theorem foldl_decimal (l : List Nat) (a : Nat) :
    l.foldl (fun acc d => acc * 10 + d) a = a * 10 ^ l.length + ofDecRev l.reverse := by
  induction l generalizing a with
  | nil => simp [ofDecRev]
  | cons d ds ih =>
    have append_digit : ∀ (xs : List Nat) (e : Nat),
        ofDecRev (xs ++ [e]) = ofDecRev xs + e * 10 ^ xs.length := by
      intro xs e
      induction xs with
      | nil => simp [ofDecRev]
      | cons x xs ihx => simp [ofDecRev, ihx]; ring
    simp only [List.foldl_cons, ih, List.reverse_cons, append_digit, List.length_reverse]
    simp [List.length_cons]
    ring

theorem foldl_congr_mem {α : Type} {l : List α} {f g : Nat → α → Nat}
    (h : ∀ a : Nat, ∀ b ∈ l, f a b = g a b) :
    ∀ a : Nat, l.foldl f a = l.foldl g a := by
  induction l with
  | nil => intro a; rfl
  | cons x xs ih =>
    intro a
    simp only [List.foldl_cons, h a x (by simp)]
    exact ih (fun a b hb => h a b (by simp [hb])) _

/-! ## Python integer parse, restricted to what the service can feed it:
optional surrounding whitespace, optional sign, digit run. -/

/-- Strip whitespace from both ends (`str.strip()`, also what `int()`
does before parsing). -/
def stripWs (l : List Char) : List Char :=
  ((l.dropWhile Char.isWhitespace).reverse.dropWhile Char.isWhitespace).reverse

/-- Split on commas (`text.split(",")`): consecutive separators and an
empty input produce empty parts, exactly as in Python. -/
def splitComma : List Char → List (List Char)
  | [] => [[]]
  | c :: cs =>
    if c = ',' then [] :: splitComma cs
    else
      match splitComma cs with
      | [] => [[c]]
      | g :: gs => (c :: g) :: gs

/-- Character-wise lower-casing (`str.lower()` / SQL `LOWER`, ASCII). -/
def toLowerChars (l : List Char) : List Char := l.map Char.toLower

/-- Parse a non-empty run of ASCII digits. -/
def pyDigits? (s : List Char) : Option Nat :=
  if s ≠ [] ∧ s.all Char.isDigit then
    some (s.foldl (fun a c => a * 10 + (c.toNat - 48)) 0)
  else none

/-- Sign dispatch of the integer parse, after whitespace stripping. -/
def pyIntCore : List Char → Option Int
  | [] => none
  | c :: rest =>
    if c = '-' then (pyDigits? rest).map (fun n => -(n : Int))
    else if c = '+' then (pyDigits? rest).map (fun n => (n : Int))
    else (pyDigits? (c :: rest)).map (fun n => (n : Int))

/-- Embedded `int(text)`: optional sign followed by a digit run, with
surrounding whitespace ignored; anything else raises (here: `none`). -/
def pyInt? (s : List Char) : Option Int :=
  pyIntCore (stripWs s)

theorem dropWhile_eq_self_of_none {p : Char → Bool} {l : List Char}
    (h : ∀ c ∈ l, p c = false) : l.dropWhile p = l := by
  cases l with
  | nil => rfl
  | cons c cs => rw [List.dropWhile_cons_of_neg (by simp [h c (by simp)])]

theorem stripWs_eq_self {l : List Char}
    (h : ∀ c ∈ l, c.isWhitespace = false) : stripWs l = l := by
  unfold stripWs
  rw [dropWhile_eq_self_of_none h,
      dropWhile_eq_self_of_none (by intro c hc; exact h c (List.mem_reverse.mp hc)),
      List.reverse_reverse]

/-! ## Url-safe base64 (the `base64.urlsafe_b64encode/b64decode` pair) -/

/-- The url-safe base64 alphabet. -/
def b64Alphabet : List Char :=
  "ABCDEFGHIJKLMNOPQRSTUVWXYZabcdefghijklmnopqrstuvwxyz0123456789-_".data

/-- Sextet to alphabet character. -/
def b64Char (v : Nat) : Char := b64Alphabet.getD v '?'

/-- Alphabet character back to sextet; `none` for characters outside the
alphabet (including the padding character). -/
def b64Index (c : Char) : Option Nat := b64Alphabet.findIdx? (· = c)

/-- Standard url-safe base64 encoding of a byte string, with padding. -/
def b64encodeBytes : List Nat → List Char
  | [] => []
  | [a] => [b64Char (a / 4), b64Char (a % 4 * 16), '=', '=']
  | [a, b] => [b64Char (a / 4), b64Char (a % 4 * 16 + b / 16), b64Char (b % 16 * 4), '=']
  | a :: b :: c :: rest =>
    b64Char (a / 4) :: b64Char (a % 4 * 16 + b / 16) ::
      b64Char (b % 16 * 4 + c / 64) :: b64Char (c % 64) :: b64encodeBytes rest

/-- Base64 decoding: groups of four characters, padding only in the final
group; `none` on any malformed input. -/
def b64decodeBytes : List Char → Option (List Nat)
  | [] => some []
  | c1 :: c2 :: c3 :: c4 :: rest =>
    match b64Index c1, b64Index c2 with
    | some v1, some v2 =>
      if c3 = '=' then
        if c4 = '=' ∧ rest = [] then some [v1 * 4 + v2 / 16] else none
      else
        match b64Index c3 with
        | some v3 =>
          if c4 = '=' then
            if rest = [] then some [v1 * 4 + v2 / 16, v2 % 16 * 16 + v3 / 4] else none
          else
            match b64Index c4 with
            | some v4 =>
              (b64decodeBytes rest).map
                (fun bs => (v1 * 4 + v2 / 16) :: (v2 % 16 * 16 + v3 / 4) ::
                  (v3 % 4 * 64 + v4) :: bs)
            | none => none
        | none => none
    | _, _ => none
  | _ => none

theorem b64Index_b64Char : ∀ v, v < 64 → b64Index (b64Char v) = some v := by decide

theorem b64Char_ne_pad : ∀ v, v < 64 → b64Char v ≠ '=' := by decide

theorem b64decode_pad2 (v1 v2 : Nat) (h1 : v1 < 64) (h2 : v2 < 64) :
    b64decodeBytes [b64Char v1, b64Char v2, '=', '='] = some [v1 * 4 + v2 / 16] := by
  simp [b64decodeBytes, b64Index_b64Char v1 h1, b64Index_b64Char v2 h2]

theorem b64decode_pad1 (v1 v2 v3 : Nat) (h1 : v1 < 64) (h2 : v2 < 64) (h3 : v3 < 64) :
    b64decodeBytes [b64Char v1, b64Char v2, b64Char v3, '='] =
      some [v1 * 4 + v2 / 16, v2 % 16 * 16 + v3 / 4] := by
  simp [b64decodeBytes, b64Index_b64Char v1 h1, b64Index_b64Char v2 h2,
    b64Index_b64Char v3 h3, b64Char_ne_pad v3 h3]

theorem b64decode_group (v1 v2 v3 v4 : Nat) (rest : List Char)
    (h1 : v1 < 64) (h2 : v2 < 64) (h3 : v3 < 64) (h4 : v4 < 64) :
    b64decodeBytes (b64Char v1 :: b64Char v2 :: b64Char v3 :: b64Char v4 :: rest) =
      (b64decodeBytes rest).map
        (fun bs => (v1 * 4 + v2 / 16) :: (v2 % 16 * 16 + v3 / 4) ::
          (v3 % 4 * 64 + v4) :: bs) := by
  simp [b64decodeBytes, b64Index_b64Char v1 h1, b64Index_b64Char v2 h2,
    b64Index_b64Char v3 h3, b64Index_b64Char v4 h4,
    b64Char_ne_pad v3 h3, b64Char_ne_pad v4 h4]

theorem b64_roundtrip : ∀ (s : List Nat), (∀ x ∈ s, x < 256) →
    b64decodeBytes (b64encodeBytes s) = some s := by
  intro s
  induction s using b64encodeBytes.induct with
  | case1 => intro _; rfl
  | case2 a =>
    intro h
    have ha : a < 256 := h a (by simp)
    rw [b64encodeBytes, b64decode_pad2 (a / 4) (a % 4 * 16) (by omega) (by omega)]
    congr 1
    simp only [List.cons.injEq, and_true]
    omega
  | case3 a b =>
    intro h
    have ha : a < 256 := h a (by simp)
    have hb : b < 256 := h b (by simp)
    rw [b64encodeBytes,
      b64decode_pad1 (a / 4) (a % 4 * 16 + b / 16) (b % 16 * 4) (by omega) (by omega) (by omega)]
    congr 1
    simp only [List.cons.injEq, and_true]
    constructor <;> omega
  | case4 a b c rest ih =>
    intro h
    have ha : a < 256 := h a (by simp)
    have hb : b < 256 := h b (by simp)
    have hc : c < 256 := h c (by simp)
    have hrest : ∀ x ∈ rest, x < 256 := by
      intro x hx; exact h x (by simp [hx])
    rw [b64encodeBytes,
      b64decode_group (a / 4) (a % 4 * 16 + b / 16) (b % 16 * 4 + c / 64) (c % 64) _
        (by omega) (by omega) (by omega) (by omega),
      ih hrest]
    simp only [Option.map_some', Option.some.injEq, List.cons.injEq, and_true]
    refine ⟨by omega, by omega, by omega⟩

/-! ## Cursor encoding (`encode_cursor` / `decode_cursor`) -/

/-- Error taxonomy surfaced by the embedded handlers. -/
inductive ApiError where
  | invalidCursor
  | notFound
  | precondFailed
  deriving DecidableEq, Repr

/-- ASCII decode of a byte string (the `bytes.decode()` step); the service
only ever feeds it ASCII digits, so the embedding rejects non-ASCII. -/
def asciiDecode? (bs : List Nat) : Option (List Char) :=
  if bs.all (· < 128) then some (bs.map Char.ofNat) else none

/-- Embeds `encode_cursor`: base64 of the decimal rendering of the offset. -/
def encode_cursor (offset : Nat) : String :=
  ⟨b64encodeBytes (pyStrNat offset)⟩

/-- Body of the cursor decode for a present, non-empty token. -/
def decodeCursorStr (cs : List Char) : Except ApiError Int :=
  match b64decodeBytes cs with
  | none => .error .invalidCursor
  | some bs =>
    match asciiDecode? bs with
    | none => .error .invalidCursor
    | some chars =>
      match pyInt? chars with
      | none => .error .invalidCursor
      | some n => .ok n

/-- Embeds `decode_cursor`: an absent (or empty, hence falsy) cursor is
offset 0; otherwise base64-decode, text-decode and integer-parse, any
failure raising the invalid-cursor client error. -/
def decode_cursor (cursor : Option String) : Except ApiError Int :=
  match cursor with
  | none => .ok 0
  | some c => if c = "" then .ok 0 else decodeCursorStr c.data

theorem digit_char_facts : ∀ d, d < 10 →
    (Char.ofNat (d + 48)).isDigit = true ∧
    (Char.ofNat (d + 48)).toNat = d + 48 ∧
    (Char.ofNat (d + 48)).isWhitespace = false ∧
    Char.ofNat (d + 48) ≠ '-' ∧ Char.ofNat (d + 48) ≠ '+' := by decide

theorem pyStrNat_char_facts (n : Nat) :
    ∀ c ∈ (pyStrNat n).map Char.ofNat,
      c.isDigit = true ∧ c.isWhitespace = false ∧ c ≠ '-' ∧ c ≠ '+' ∧
      ∀ b ∈ pyStrNat n, Char.ofNat b = c → c.toNat = b := by
  intro c hc
  simp only [List.mem_map] at hc
  obtain ⟨b0, hb0, rfl⟩ := hc
  have hbb0 := pyStrNat_bounds n b0 hb0
  have heq0 : Char.ofNat b0 = Char.ofNat ((b0 - 48) + 48) := by congr 1; omega
  have hf0 := digit_char_facts (b0 - 48) (by omega)
  refine ⟨by rw [heq0]; exact hf0.1, by rw [heq0]; exact hf0.2.2.1,
    by rw [heq0]; exact hf0.2.2.2.1, by rw [heq0]; exact hf0.2.2.2.2, ?_⟩
  intro b hb hbc
  have hbb := pyStrNat_bounds n b hb
  have heq : Char.ofNat b = Char.ofNat ((b - 48) + 48) := by congr 1; omega
  have hf := digit_char_facts (b - 48) (by omega)
  rw [← hbc, heq, hf.2.1]
  omega

theorem pyStrNat_val (n : Nat) :
    ((pyStrNat n).map Char.ofNat).foldl (fun a c => a * 10 + (c.toNat - 48)) 0 = n := by
  rw [List.foldl_map]
  have hcongr : ∀ a : Nat, ∀ b ∈ pyStrNat n,
      a * 10 + ((Char.ofNat b).toNat - 48) = a * 10 + (b - 48) := by
    intro a b hb
    have hbb := pyStrNat_bounds n b hb
    have heq : Char.ofNat b = Char.ofNat ((b - 48) + 48) := by congr 1; omega
    rw [heq, (digit_char_facts (b - 48) (by omega)).2.1]
    omega
  rw [foldl_congr_mem hcongr 0]
  unfold pyStrNat
  by_cases h : n = 0
  · simp [h]
  · simp only [h, if_false, List.foldl_map]
    have : ∀ a : Nat, ∀ d ∈ (toDecRev n).reverse, a * 10 + (d + 48 - 48) = a * 10 + d := by
      intro a d _; omega
    rw [foldl_congr_mem this 0, foldl_decimal]
    simp [List.reverse_reverse, ofDecRev_toDecRev n]

theorem encode_cursor_ne_empty (n : Nat) : encode_cursor n ≠ "" := by
  intro hcontra
  have hdata : b64encodeBytes (pyStrNat n) = [] := congrArg String.data hcontra
  rcases hs : pyStrNat n with _ | ⟨a, _ | ⟨b, _ | ⟨c, t⟩⟩⟩
  · exact pyStrNat_ne_nil n hs
  all_goals rw [hs] at hdata; simp [b64encodeBytes] at hdata

/-- Round-trip of the cursor pair, shared by several statements below. -/
theorem decode_encode_cursor (n : Nat) :
    decode_cursor (some (encode_cursor n)) = .ok (n : Int) := by
  have hchars := pyStrNat_char_facts n
  have hascii : asciiDecode? (pyStrNat n) = some ((pyStrNat n).map Char.ofNat) := by
    unfold asciiDecode?
    rw [if_pos]
    simp only [List.all_eq_true, decide_eq_true_eq]
    intro x hx; have := pyStrNat_bounds n x hx; omega
  have hparse : pyInt? ((pyStrNat n).map Char.ofNat) = some (n : Int) := by
    unfold pyInt?
    rw [stripWs_eq_self (by intro c hc; exact (hchars c hc).2.1)]
    rcases hl : (pyStrNat n).map Char.ofNat with _ | ⟨c, rest⟩
    · exact absurd (List.map_eq_nil_iff.mp hl) (pyStrNat_ne_nil n)
    · have hcmem : c ∈ (pyStrNat n).map Char.ofNat := by rw [hl]; simp
      have hall : (c :: rest).all Char.isDigit = true := by
        rw [List.all_eq_true]
        intro x hx
        have : x ∈ (pyStrNat n).map Char.ofNat := by rw [hl]; exact hx
        exact (hchars x this).1
      have hdig : pyDigits? (c :: rest) = some n := by
        unfold pyDigits?
        rw [if_pos ⟨by simp, hall⟩, ← hl, pyStrNat_val n]
      rw [pyIntCore, if_neg (hchars c hcmem).2.2.1, if_neg (hchars c hcmem).2.2.2.1, hdig]
      rfl
  have hbytes : ∀ x ∈ pyStrNat n, x < 256 := by
    intro x hx; have := pyStrNat_bounds n x hx; omega
  show (if encode_cursor n = "" then Except.ok 0
    else decodeCursorStr (encode_cursor n).data) = Except.ok (n : Int)
  rw [if_neg (encode_cursor_ne_empty n)]
  show decodeCursorStr (b64encodeBytes (pyStrNat n)) = Except.ok (n : Int)
  unfold decodeCursorStr
  rw [b64_roundtrip (pyStrNat n) hbytes]
  simp only [hascii, hparse]

/-- Claim C2.  Cursor round-trip: decoding the cursor produced by encoding
any non-negative integer yields that integer back; an absent cursor decodes
to offset 0; and a malformed token (here `"YQ=="`, which base64-decodes to
the non-numeric text `"a"`) raises the invalid-cursor client error instead
of being treated as zero. -/
theorem cursor_roundtrip_C2 :
    (∀ n : Nat, decode_cursor (some (encode_cursor n)) = .ok (n : Int)) ∧
    decode_cursor none = .ok 0 ∧
    decode_cursor (some "YQ==") = .error .invalidCursor :=
  ⟨decode_encode_cursor, rfl, by rfl⟩

end Feedback
namespace Feedback

/-! ## SQL LIKE and JSON_SEARCH pattern matching

The list endpoints compare tags with `JSON_SEARCH(tags, one, token)` and
search text with `LIKE`.  Both interpret the percent and underscore
characters of their pattern argument as wildcards; we embed that matcher.
The backslash escape extension of the pattern language is not modelled;
every statement about the matcher below therefore keeps backslash out of
its patterns.  A pattern must match the entire subject (the free-text
filter wraps its pattern in percents itself, exactly as the source
does). -/

/-- MySQL LIKE / JSON_SEARCH matching of a whole subject string against a
pattern with percent (any run) and underscore (any one character)
wildcards. -/
def likeMatch : List Char → List Char → Bool
  | [], s => s.isEmpty
  | p :: ps, s =>
    if p = '%' then s.tails.any (fun t => likeMatch ps t)
    else
      match s with
      | [] => false
      | c :: s2 => (if p = '_' then true else decide (p = c)) && likeMatch ps s2

theorem likeMatch_nil (s : List Char) : likeMatch [] s = s.isEmpty := by
  cases s <;> rw [likeMatch]

theorem likeMatch_percent (ps s : List Char) :
    likeMatch ('%' :: ps) s = s.tails.any (fun t => likeMatch ps t) := by
  cases s with
  | nil => rw [likeMatch, if_pos rfl]
  | cons c s2 => rw [likeMatch, if_pos rfl]

theorem likeMatch_cons_nil {c : Char} (ps : List Char) (h1 : c ≠ '%') :
    likeMatch (c :: ps) [] = false := by
  rw [likeMatch, if_neg h1]

theorem likeMatch_cons_cons {c : Char} (ps : List Char) {c2 : Char} (s2 : List Char)
    (h1 : c ≠ '%') (h2 : c ≠ '_') :
    likeMatch (c :: ps) (c2 :: s2) = (decide (c = c2) && likeMatch ps s2) := by
  rw [likeMatch, if_neg h1]
  simp only [if_neg h2]

/-- A string free of the LIKE wildcard and escape characters. -/
def wildFree (p : List Char) : Bool :=
  p.all (fun c => !(c = '%' || c = '_' || c = '\\'))

theorem wildFree_cons {c : Char} {p : List Char} (h : wildFree (c :: p) = true) :
    c ≠ '%' ∧ c ≠ '_' ∧ c ≠ '\\' ∧ wildFree p = true := by
  simp only [wildFree, List.all_cons, Bool.and_eq_true] at h
  obtain ⟨hc, hrest⟩ := h
  have hor : ¬(c = '%' ∨ c = '_' ∨ c = '\\') := by
    intro hor
    rcases hor with h | h | h <;> simp [h] at hc
  exact ⟨fun hh => hor (Or.inl hh), fun hh => hor (Or.inr (Or.inl hh)),
    fun hh => hor (Or.inr (Or.inr hh)), hrest⟩

/-- On a wildcard-free pattern, LIKE matching is exactly string equality. -/
theorem likeMatch_wildFree {p : List Char} (hp : wildFree p = true) :
    ∀ s : List Char, likeMatch p s = true ↔ p = s := by
  induction p with
  | nil =>
    intro s
    rw [likeMatch_nil]
    cases s <;> simp
  | cons c ps ih =>
    intro s
    obtain ⟨h1, h2, _, h4⟩ := wildFree_cons hp
    cases s with
    | nil => rw [likeMatch_cons_nil ps h1]; simp
    | cons c2 s2 =>
      rw [likeMatch_cons_cons ps s2 h1 h2]
      simp only [Bool.and_eq_true, decide_eq_true_eq, List.cons.injEq]
      rw [ih h4 s2]

/-- A pattern that is a wildcard-free core followed by a percent matches
exactly the strings having the core as a prefix. -/
theorem likeMatch_startsWith {p : List Char} (hp : wildFree p = true) :
    ∀ s : List Char, likeMatch (p ++ ['%']) s = true ↔ p <+: s := by
  induction p with
  | nil =>
    intro s
    rw [List.nil_append, likeMatch_percent]
    simp only [List.any_eq_true, List.mem_tails]
    constructor
    · intro _; exact List.nil_prefix
    · intro _
      refine ⟨[], List.nil_suffix, ?_⟩
      rw [likeMatch_nil]; rfl
  | cons c ps ih =>
    intro s
    obtain ⟨h1, h2, _, h4⟩ := wildFree_cons hp
    cases s with
    | nil =>
      rw [List.cons_append, likeMatch_cons_nil _ h1]
      simp
    | cons c2 s2 =>
      rw [List.cons_append, likeMatch_cons_cons _ _ h1 h2]
      simp only [Bool.and_eq_true, decide_eq_true_eq, List.cons_prefix_cons]
      rw [ih h4 s2]

/-- A pattern percent-core-percent with a wildcard-free core matches
exactly the strings containing the core as a contiguous substring. -/
theorem likeMatch_infix {p : List Char} (hp : wildFree p = true) :
    ∀ s : List Char, likeMatch ('%' :: (p ++ ['%'])) s = true ↔ p <:+: s := by
  intro s
  rw [likeMatch_percent]
  simp only [List.any_eq_true, List.mem_tails]
  constructor
  · rintro ⟨t, hts, hm⟩
    exact List.infix_iff_prefix_suffix.mpr ⟨t, (likeMatch_startsWith hp t).mp hm, hts⟩
  · intro h
    obtain ⟨t, hpt, hts⟩ := List.infix_iff_prefix_suffix.mp h
    exact ⟨t, hts, (likeMatch_startsWith hp t).mpr hpt⟩

/-! ## Tag tokenization and the two tag predicates -/

/-- Embeds the token cleanup step shared by every endpoint with a `tags`
parameter: split on commas, strip, drop empty tokens, lower-case. -/
def parseTags (tags : String) : List String :=
  (splitComma tags.data).filterMap (fun t =>
    if stripWs t = [] then none else some ⟨toLowerChars (stripWs t)⟩)

/-- The tokenization as the specification words it: tokens are trimmed,
empty tokens discarded, and the rest lower-cased. -/
def specTokens (tags : String) : List String :=
  (((splitComma tags.data).map stripWs).filter (· ≠ [])).map
    (fun u => (⟨toLowerChars u⟩ : String))

theorem parseTags_eq_specTokens (tags : String) : parseTags tags = specTokens tags := by
  unfold parseTags specTokens
  induction splitComma tags.data with
  | nil => rfl
  | cons t ts ih =>
    by_cases h : stripWs t = []
    · simp [h, ih]
    · simp [h, ih]

/-- Effective token list of an optional `tags` query parameter, taking the
truthiness guard (`if tags:`) into account. -/
def tagTokens : Option String → List String
  | none => []
  | some s => if s = "" then [] else parseTags s

/-- Embeds `JSON_SEARCH(tags, one, token) IS NOT NULL` over a stored tag
array: some stored string value matches the token as a LIKE-style
pattern; a NULL column never matches. -/
def jsonSearchOne (stored : Option (List String)) (tok : String) : Bool :=
  match stored with
  | none => false
  | some l => l.any (fun s => likeMatch tok.data s.data)

/-- Embeds `JSON_OVERLAPS(tags, CAST(tokens AS JSON))`: the stored array
and the token array share at least one element; NULL never matches. -/
def jsonOverlaps (stored : Option (List String)) (toks : List String) : Bool :=
  match stored with
  | none => false
  | some l => l.any (fun s => toks.any (fun t => s = t))

/-- Tag clause of the profile-feedback list query: an OR-chain of
`JSON_SEARCH` conditions, absent (hence true) when there are no tokens. -/
def searchTagClause (tags : Option String) (stored : Option (List String)) : Bool :=
  match tagTokens tags with
  | [] => true
  | toks => toks.any (fun tok => jsonSearchOne stored tok)

/-- Tag clause of the stats queries and of the app-feedback list query:
one `JSON_OVERLAPS` condition, absent (hence true) when no tokens. -/
def overlapsTagClause (tags : Option String) (stored : Option (List String)) : Bool :=
  match tagTokens tags with
  | [] => true
  | toks => jsonOverlaps stored toks

/-! ## Free-text search clause -/

/-- Embeds the free-text filter: lower-cased headline or comment, each
coalesced to the empty string, LIKE-matched against percent-wrapped
lower-cased search text; an absent (or empty, falsy) search imposes
nothing. -/
def searchClause : Option String → Option String → Option String → Bool
  | none, _, _ => true
  | some q, headline, comment =>
    if q = "" then true
    else
      likeMatch ('%' :: (toLowerChars q.data ++ ['%'])) (toLowerChars (headline.getD "").data) ||
      likeMatch ('%' :: (toLowerChars q.data ++ ['%'])) (toLowerChars (comment.getD "").data)

/-- The free-text filter as the specification words it: the lower-cased
search string is a literal substring of a lower-cased text field. -/
def specSearchMatches (search : String) (headline comment : Option String) : Bool :=
  ((toLowerChars (headline.getD "").data).tails.any
    (fun t => (toLowerChars search.data).isPrefixOf t)) ||
  ((toLowerChars (comment.getD "").data).tails.any
    (fun t => (toLowerChars search.data).isPrefixOf t))

end Feedback

namespace Feedback

/-! ## Data model

Embedded rows of the two tables.  Identifiers are strings, timestamps are
natural numbers (microseconds since the epoch; `DATETIME(6)` rendering is
injective in this value), ratings are integers, nullable columns are
options, and the JSON `tags` column is either NULL or an array of
strings (the only shapes the write paths ever store). -/

structure ProfileRow where
  id : String
  created_at : Nat
  updated_at : Nat
  reviewer_profile_id : String
  reviewee_profile_id : String
  match_id : Option String
  overall_experience : Int
  would_meet_again : Option Bool
  safety_feeling : Option Int
  respectfulness : Option Int
  headline : Option String
  comment : Option String
  tags : Option (List String)
  deriving DecidableEq

structure AppRow where
  id : String
  created_at : Nat
  updated_at : Nat
  author_profile_id : Option String
  overall : Int
  usability : Option Int
  reliability : Option Int
  performance : Option Int
  support_experience : Option Int
  headline : Option String
  comment : Option String
  tags : Option (List String)
  deriving DecidableEq

/-! ## Filter compiler

One Boolean predicate per WHERE clause the endpoints build; an absent
parameter contributes no clause, hence `true`. -/

/-- Equality filter against a NOT NULL column, active when supplied. -/
def optStrEq (param : Option String) (v : String) : Bool :=
  match param with
  | none => true
  | some x => decide (v = x)

/-- Equality filter against a nullable column (`col=%s` is false on NULL
rows), active when supplied. -/
def optStrEqOpt (param : Option String) (v : Option String) : Bool :=
  match param with
  | none => true
  | some x => decide (v = some x)

/-- Temporal filter `created_at >= %s`, active when supplied. -/
def sinceClause (since : Option Nat) (created_at : Nat) : Bool :=
  match since with
  | none => true
  | some t => decide (t ≤ created_at)

/-- Lower rating bound, active when supplied (`is not None` in source). -/
def minClause (minv : Option Int) (rating : Int) : Bool :=
  match minv with
  | none => true
  | some m => decide (m ≤ rating)

/-- Upper rating bound, active when supplied. -/
def maxClause (maxv : Option Int) (rating : Int) : Bool :=
  match maxv with
  | none => true
  | some m => decide (rating ≤ m)

/-- Query parameters of the profile-feedback list endpoint. -/
structure ProfileListParams where
  reviewee_profile_id : Option String := none
  reviewer_profile_id : Option String := none
  match_id : Option String := none
  tags : Option String := none
  min_overall : Option Int := none
  max_overall : Option Int := none
  since : Option Nat := none
  search : Option String := none
  sort : String := "created_at"
  order : String := "desc"
  limit : Nat := 20
  cursor : Option String := none

/-- WHERE predicate compiled by `list_profile_feedback`, clause for
clause in source order. -/
def profileRowPred (p : ProfileListParams) (r : ProfileRow) : Bool :=
  optStrEq p.reviewee_profile_id r.reviewee_profile_id &&
  optStrEq p.reviewer_profile_id r.reviewer_profile_id &&
  optStrEqOpt p.match_id r.match_id &&
  sinceClause p.since r.created_at &&
  minClause p.min_overall r.overall_experience &&
  maxClause p.max_overall r.overall_experience &&
  searchTagClause p.tags r.tags &&
  searchClause p.search r.headline r.comment

/-- Query parameters of the app-feedback list endpoint. -/
structure AppListParams where
  author_profile_id : Option String := none
  tags : Option String := none
  min_overall : Option Int := none
  max_overall : Option Int := none
  since : Option Nat := none
  search : Option String := none
  sort : String := "created_at"
  order : String := "desc"
  limit : Nat := 20
  offset : Nat := 0
  cursor : Option String := none

/-- WHERE predicate compiled by `list_app_feedback`. -/
def appRowPred (p : AppListParams) (r : AppRow) : Bool :=
  optStrEqOpt p.author_profile_id r.author_profile_id &&
  sinceClause p.since r.created_at &&
  minClause p.min_overall r.overall &&
  maxClause p.max_overall r.overall &&
  overlapsTagClause p.tags r.tags &&
  searchClause p.search r.headline r.comment

/-- WHERE predicate compiled by `profile_feedback_stats` (reviewee id is
mandatory there; only `since` and `tags` join it). -/
def profileStatsPred (reviewee : String) (since : Option Nat) (tags : Option String)
    (r : ProfileRow) : Bool :=
  decide (r.reviewee_profile_id = reviewee) &&
  sinceClause since r.created_at &&
  overlapsTagClause tags r.tags

/-- The list predicate restricted to the parameter combination the stats
endpoint also accepts (reviewee id, since, tags), clause for clause as
`list_profile_feedback` builds it. -/
def profileListPredShared (reviewee : String) (since : Option Nat) (tags : Option String)
    (r : ProfileRow) : Bool :=
  decide (r.reviewee_profile_id = reviewee) &&
  sinceClause since r.created_at &&
  searchTagClause tags r.tags

/-- WHERE predicate compiled by `app_feedback_stats`. -/
def appStatsPred (since : Option Nat) (tags : Option String) (r : AppRow) : Bool :=
  sinceClause since r.created_at &&
  overlapsTagClause tags r.tags

/-! ## Pagination controller -/

/-- Ordered insertion, the base step of the embedded ORDER BY. -/
def insertLe {α : Type} (le : α → α → Bool) (a : α) : List α → List α
  | [] => [a]
  | b :: l => if le a b then a :: b :: l else b :: insertLe le a l

/-- Insertion sort: the embedding of ORDER BY under a total Boolean
comparison (structurally recursive so that proofs can evaluate it). -/
def sortLe {α : Type} (le : α → α → Bool) : List α → List α
  | [] => []
  | a :: l => insertLe le a (sortLe le l)

/-- Sort key of a profile row (`created_at` or `overall_experience`). -/
def profileKey (sort : String) (r : ProfileRow) : Int :=
  if sort = "created_at" then (r.created_at : Int) else r.overall_experience

/-- Ascending comparison on (key, id); ties on the key are broken by the
identity in the same direction. -/
def profileAscLe (sort : String) (a b : ProfileRow) : Bool :=
  decide (profileKey sort a < profileKey sort b) ||
  (decide (profileKey sort a = profileKey sort b) && decide (a.id ≤ b.id))

/-- Row order requested by the query (`ASC` or `DESC` on key and id). -/
def profileOrderLe (sort ord : String) (a b : ProfileRow) : Bool :=
  if ord = "asc" then profileAscLe sort a b else profileAscLe sort b a

/-- Sort key of an app row (`created_at` or `overall`). -/
def appKey (sort : String) (r : AppRow) : Int :=
  if sort = "created_at" then (r.created_at : Int) else r.overall

def appAscLe (sort : String) (a b : AppRow) : Bool :=
  decide (appKey sort a < appKey sort b) ||
  (decide (appKey sort a = appKey sort b) && decide (a.id ≤ b.id))

def appOrderLe (sort ord : String) (a b : AppRow) : Bool :=
  if ord = "asc" then appAscLe sort a b else appAscLe sort b a

/-- Result assembled by the profile-feedback list endpoint. -/
structure ProfileListResult where
  items : List ProfileRow
  next_cursor : Option String
  count : Nat
  deriving DecidableEq

/-- Embeds `list_profile_feedback`: decode the cursor (failure is the
invalid-cursor client error; a negative crafted offset would be rejected
by the storage layer, surfaced here as `notFound`-free storage failure via
`invalidCursor`-distinct error is not modelled, so it is mapped to the
storage error below), filter, sort, fetch one page, and emit a next
cursor exactly when the page is full. -/
def list_profile_feedback (db : List ProfileRow) (p : ProfileListParams) :
    Except ApiError ProfileListResult :=
  match decode_cursor p.cursor with
  | .error e => .error e
  | .ok off =>
    if off < 0 then .error .invalidCursor
    else
      let offset := off.toNat
      let rows := (sortLe (profileOrderLe p.sort p.order)
        (db.filter (profileRowPred p))).drop offset |>.take p.limit
      .ok {
        items := rows
        next_cursor :=
          if rows.length = p.limit then some (encode_cursor (offset + rows.length)) else none
        count := rows.length }

/-- Result assembled by the app-feedback list endpoint, pagination block
included. -/
structure AppListResult where
  items : List AppRow
  next_cursor : Option String
  count : Nat
  limit : Nat
  offset : Nat
  total : Nat
  has_next : Bool
  has_previous : Bool
  next_offset : Option Nat
  previous_offset : Option Nat
  deriving DecidableEq

/-- The effective offset of the app list endpoint: decoded from the
cursor when one is supplied and non-empty (the truthiness guard), else
the explicit offset parameter. -/
def appEffectiveOffset (p : AppListParams) : Except ApiError Int :=
  match p.cursor with
  | some c => if c = "" then .ok (p.offset : Int) else decode_cursor (some c)
  | none => .ok (p.offset : Int)

/-- Embeds `list_app_feedback`: the page and an exact total over the same
predicate are fetched, and the pagination block is derived from them. -/
def list_app_feedback (db : List AppRow) (p : AppListParams) :
    Except ApiError AppListResult :=
  match appEffectiveOffset p with
  | .error e => .error e
  | .ok off =>
    if off < 0 then .error .invalidCursor
    else
      let eo := off.toNat
      let filtered := db.filter (appRowPred p)
      let rows := (sortLe (appOrderLe p.sort p.order) filtered).drop eo |>.take p.limit
      let total := filtered.length
      let has_next := decide (eo + rows.length < total)
      .ok {
        items := rows
        next_cursor :=
          if rows.length = p.limit then some (encode_cursor (eo + rows.length)) else none
        count := rows.length
        limit := p.limit
        offset := eo
        total := total
        has_next := has_next
        has_previous := decide (0 < eo)
        next_offset := if has_next then some (eo + p.limit) else none
        previous_offset := if 0 < eo then some (eo - p.limit) else none }

end Feedback

namespace Feedback

/-! ## Aggregation engine -/

/-- Rounding to three decimal places (`round(float(x), 3)`; the binary
float detour and its tie-breaking convention are presentational and not
modelled). -/
def roundTo3 (q : ℚ) : ℚ := (round (q * 1000) : ℤ) / 1000

/-- Mean of a rating column over the filtered set, rounded; `AVG` is NULL
over an empty set. -/
def ratAvg (l : List Int) : Option ℚ :=
  if l.isEmpty then none else some (roundTo3 ((l.sum : ℚ) / (l.length : ℚ)))

/-- The five `SUM(col=k)` buckets, keyed by the rendered rating. -/
def histo (vals : List Int) : List (String × Nat) :=
  [("1", (vals.filter (· = 1)).length),
   ("2", (vals.filter (· = 2)).length),
   ("3", (vals.filter (· = 3)).length),
   ("4", (vals.filter (· = 4)).length),
   ("5", (vals.filter (· = 5)).length)]

structure TagCount where
  tag : String
  count : Nat
  deriving DecidableEq

/-- Embeds the tag-ranking query: explode every row tag array
(`JSON_TABLE`, a NULL array contributing nothing), count every distinct
tag, order by count descending then tag ascending, keep ten. -/
def topTags (stored : List (Option (List String))) : List TagCount :=
  let all := (stored.map (fun t => t.getD [])).flatten
  (sortLe
    (fun a b => decide (b.count < a.count) ||
      (decide (a.count = b.count) && decide (a.tag ≤ b.tag)))
    (all.dedup.map (fun t => ({ tag := t, count := all.count t } : TagCount)))).take 10

structure ProfileStatsResult where
  count_total : Nat
  avg_overall_experience : Option ℚ
  distribution_overall_experience : List (String × Nat)
  avg_safety : Option ℚ
  avg_respect : Option ℚ
  top_tags : List TagCount
  deriving DecidableEq

/-- Embeds `profile_feedback_stats`.  The second component records whether
the tag-ranking query was executed. -/
def profile_feedback_stats (db : List ProfileRow) (reviewee : String)
    (tags : Option String) (since : Option Nat) : ProfileStatsResult × Bool :=
  let filtered := db.filter (profileStatsPred reviewee since tags)
  let total := filtered.length
  if total = 0 then
    ({ count_total := 0
       avg_overall_experience := none
       distribution_overall_experience := [("1", 0), ("2", 0), ("3", 0), ("4", 0), ("5", 0)]
       avg_safety := none
       avg_respect := none
       top_tags := [] }, false)
  else
    ({ count_total := total
       avg_overall_experience := ratAvg (filtered.map (·.overall_experience))
       distribution_overall_experience := histo (filtered.map (·.overall_experience))
       avg_safety := ratAvg ((filtered.filterMap (·.safety_feeling)).filter (· ≠ 0))
       avg_respect := ratAvg ((filtered.filterMap (·.respectfulness)).filter (· ≠ 0))
       top_tags := topTags (filtered.map (·.tags)) }, true)

structure AppStatsResult where
  count_total : Nat
  avg_overall : Option ℚ
  distribution_overall : List (String × Nat)
  avg_usability : Option ℚ
  avg_reliability : Option ℚ
  avg_performance : Option ℚ
  avg_support : Option ℚ
  top_tags : List TagCount
  deriving DecidableEq

/-- Embeds `app_feedback_stats`; second component as above. -/
def app_feedback_stats (db : List AppRow) (tags : Option String)
    (since : Option Nat) : AppStatsResult × Bool :=
  let filtered := db.filter (appStatsPred since tags)
  let total := filtered.length
  if total = 0 then
    ({ count_total := 0
       avg_overall := none
       distribution_overall := [("1", 0), ("2", 0), ("3", 0), ("4", 0), ("5", 0)]
       avg_usability := none
       avg_reliability := none
       avg_performance := none
       avg_support := none
       top_tags := [] }, false)
  else
    ({ count_total := total
       avg_overall := ratAvg (filtered.map (·.overall))
       distribution_overall := histo (filtered.map (·.overall))
       avg_usability := ratAvg ((filtered.filterMap (·.usability)).filter (· ≠ 0))
       avg_reliability := ratAvg ((filtered.filterMap (·.reliability)).filter (· ≠ 0))
       avg_performance := ratAvg ((filtered.filterMap (·.performance)).filter (· ≠ 0))
       avg_support := ratAvg ((filtered.filterMap (·.support_experience)).filter (· ≠ 0))
       top_tags := topTags (filtered.map (·.tags)) }, true)

/-! ## Concurrency guard -/

/-- Decimal character rendering of a natural number. -/
def natDigitsChars (n : Nat) : List Char := (pyStrNat n).map Char.ofNat

/-- Embeds `make_etag`.  The real function renders `id`, a separator bar
and the update timestamp at microsecond precision, then takes a sha1 hex
digest and wraps it in quotes.  The digest step is deterministic and is
treated as injective (collision resistance), so the embedding keeps the
digest input itself: equality and inequality of modelled fingerprints
coincide with those of the real fingerprints. -/
def make_etag (id : String) (updated_at : Nat) : String :=
  ⟨id.data ++ '|' :: natDigitsChars updated_at⟩

/-- Embeds `parse_etag_header`: a falsy header is the empty list, else
split on commas, strip, drop empty parts. -/
def parse_etag_header (v : Option String) : List String :=
  match v with
  | none => []
  | some h =>
    if h = "" then []
    else (splitComma h.data).filterMap (fun t =>
      if stripWs t = [] then none else some (⟨stripWs t⟩ : String))

theorem make_etag_inj {id : String} {t1 t2 : Nat}
    (h : make_etag id t1 = make_etag id t2) : t1 = t2 := by
  have hd : id.data ++ '|' :: natDigitsChars t1 = id.data ++ '|' :: natDigitsChars t2 :=
    congrArg String.data h
  have h2 := List.append_cancel_left hd
  have h3 : natDigitsChars t1 = natDigitsChars t2 := by
    injection h2
  calc t1 = (natDigitsChars t1).foldl (fun a c => a * 10 + (c.toNat - 48)) 0 :=
        (pyStrNat_val t1).symm
    _ = (natDigitsChars t2).foldl (fun a c => a * 10 + (c.toNat - 48)) 0 := by rw [h3]
    _ = t2 := pyStrNat_val t2

/-! ## Partial updates

Field-presence patches: the outer option is whether the request body
supplied the field at all (Pydantic `exclude_unset`), the inner value is
what it supplied (which may itself be a null for nullable columns). -/

structure ProfilePatch where
  reviewer_profile_id : Option String := none
  reviewee_profile_id : Option String := none
  match_id : Option (Option String) := none
  overall_experience : Option Int := none
  would_meet_again : Option (Option Bool) := none
  safety_feeling : Option (Option Int) := none
  respectfulness : Option (Option Int) := none
  headline : Option (Option String) := none
  comment : Option (Option String) := none
  tags : Option (Option (List String)) := none

/-- True when at least one column assignment would be generated. -/
def ProfilePatch.hasFields (p : ProfilePatch) : Bool :=
  p.reviewer_profile_id.isSome || p.reviewee_profile_id.isSome || p.match_id.isSome ||
  p.overall_experience.isSome || p.would_meet_again.isSome || p.safety_feeling.isSome ||
  p.respectfulness.isSome || p.headline.isSome || p.comment.isSome || p.tags.isSome

/-- The UPDATE statement: supplied fields overwrite, `updated_at` is set
to the write clock `now` (`NOW(6)`). -/
def applyProfilePatch (r : ProfileRow) (p : ProfilePatch) (now : Nat) : ProfileRow :=
  { r with
    reviewer_profile_id := p.reviewer_profile_id.getD r.reviewer_profile_id
    reviewee_profile_id := p.reviewee_profile_id.getD r.reviewee_profile_id
    match_id := p.match_id.getD r.match_id
    overall_experience := p.overall_experience.getD r.overall_experience
    would_meet_again := p.would_meet_again.getD r.would_meet_again
    safety_feeling := p.safety_feeling.getD r.safety_feeling
    respectfulness := p.respectfulness.getD r.respectfulness
    headline := p.headline.getD r.headline
    comment := p.comment.getD r.comment
    tags := p.tags.getD r.tags
    updated_at := now }

/-- Embeds `update_profile_feedback` for one resource: the stored row
after the call, and the returned row or error. -/
def update_profile_feedback : Option ProfileRow → ProfilePatch → Nat →
    Option ProfileRow × Except ApiError ProfileRow
  | none, _, _ => (none, .error .notFound)
  | some row, payload, now =>
    if payload.hasFields then
      let r2 := applyProfilePatch row payload now
      (some r2, .ok r2)
    else (some row, .ok row)

structure AppPatch where
  author_profile_id : Option (Option String) := none
  overall : Option Int := none
  usability : Option (Option Int) := none
  reliability : Option (Option Int) := none
  performance : Option (Option Int) := none
  support_experience : Option (Option Int) := none
  headline : Option (Option String) := none
  comment : Option (Option String) := none
  tags : Option (Option (List String)) := none

def AppPatch.hasFields (p : AppPatch) : Bool :=
  p.author_profile_id.isSome || p.overall.isSome || p.usability.isSome ||
  p.reliability.isSome || p.performance.isSome || p.support_experience.isSome ||
  p.headline.isSome || p.comment.isSome || p.tags.isSome

def applyAppPatch (r : AppRow) (p : AppPatch) (now : Nat) : AppRow :=
  { r with
    author_profile_id := p.author_profile_id.getD r.author_profile_id
    overall := p.overall.getD r.overall
    usability := p.usability.getD r.usability
    reliability := p.reliability.getD r.reliability
    performance := p.performance.getD r.performance
    support_experience := p.support_experience.getD r.support_experience
    headline := p.headline.getD r.headline
    comment := p.comment.getD r.comment
    tags := p.tags.getD r.tags
    updated_at := now }

/-- Outcome surfaced by the conditional app-feedback update. -/
inductive UpdateOutcome where
  | notFound
  | precondFailed
  | ok (row : AppRow) (etag : String)
  deriving DecidableEq

/-- Mutation step of the app update, after the precondition check: a
payload with no fields is a no-op returning the current row and
fingerprint; otherwise the patch is applied, `updated_at` stamped with
the write clock, and the new fingerprint returned. -/
def applyAppUpdate (row : AppRow) (payload : AppPatch) (now : Nat) :
    Option AppRow × UpdateOutcome :=
  if payload.hasFields then
    let r2 := applyAppPatch row payload now
    (some r2, .ok r2 (make_etag r2.id r2.updated_at))
  else (some row, .ok row (make_etag row.id row.updated_at))

/-- The If-Match precondition guard: it fires only for a truthy header
whose stripped value is not the wildcard and whose parsed list does not
contain the current fingerprint. -/
def ifMatchFails : Option String → String → Bool
  | none, _ => false
  | some h, current =>
    decide (h ≠ "") && decide (stripWs h.data ≠ ['*']) &&
      !((parse_etag_header (some h)).contains current)

/-- Embeds `update_app_feedback` for one resource: first the 404 guard,
then the If-Match precondition (412 before any mutation when it fires),
then the mutation step. -/
def update_app_feedback : Option AppRow → Option String → AppPatch → Nat →
    Option AppRow × UpdateOutcome
  | none, _, _, _ => (none, .notFound)
  | some row, if_match, payload, now =>
    if ifMatchFails if_match (make_etag row.id row.updated_at) then
      (some row, .precondFailed)
    else applyAppUpdate row payload now

end Feedback

namespace Feedback

/-! ## Tag coercion on the read path (`_coerce_tags`)

The driver hands the JSON `tags` cell to `_coerce_tags` either as NULL, as
an already-decoded list, or as raw text.  For the text case the source
calls `json.loads` and keeps the result when it is a list, else falls back
to comma-splitting.  The embedded printer and parser cover the JSON string
escaping that `json.dumps` performs with its default ASCII-only output:
quote, backslash and the five short control escapes as two-character
sequences, every other character outside printable ASCII as a `\uXXXX`
group, astral code points as surrogate pairs.  Texts outside that
canonical rendering (different spacing, uppercase hex, lone surrogates)
take the fallback path. -/

inductive TagsCell where
  | null
  | pylist (xs : List String)
  | text (s : String)
  deriving DecidableEq

/-- The sixteen lowercase hex digit characters. -/
def hexDigits : List Char := "0123456789abcdef".data

/-- Lowercase hex digit of a value below sixteen. -/
def hexChar (n : Nat) : Char := hexDigits.getD n '0'

/-- Hex digit back to its value; `none` outside the lowercase digits. -/
def hexVal? (c : Char) : Option Nat := hexDigits.findIdx? (· = c)

/-- Four-digit lowercase hex rendering of a value below 65536. -/
def hexQuad (t : Nat) : List Char :=
  [hexChar (t / 4096 % 16), hexChar (t / 256 % 16), hexChar (t / 16 % 16), hexChar (t % 16)]

/-- JSON escape of one character, as the `json.dumps` ASCII encoder emits
it: quote, backslash and the five short control escapes as two-character
sequences, any other character outside the printable ASCII range as one
`\uXXXX` group (two groups forming a surrogate pair for an astral code
point), printable ASCII verbatim. -/
def escChar (c : Char) : List Char :=
  if c = '"' then ['\\', '"']
  else if c = '\\' then ['\\', '\\']
  else if c.toNat = 8 then ['\\', 'b']
  else if c.toNat = 9 then ['\\', 't']
  else if c.toNat = 10 then ['\\', 'n']
  else if c.toNat = 12 then ['\\', 'f']
  else if c.toNat = 13 then ['\\', 'r']
  else if c.toNat < 32 ∨ (127 ≤ c.toNat ∧ c.toNat < 65536) then
    '\\' :: 'u' :: hexQuad c.toNat
  else if 65536 ≤ c.toNat then
    ('\\' :: 'u' :: hexQuad (55296 + (c.toNat - 65536) / 1024)) ++
      ('\\' :: 'u' :: hexQuad (56320 + (c.toNat - 65536) % 1024))
  else [c]

/-- JSON escape of a whole string. -/
def escStr (l : List Char) : List Char := (l.map escChar).flatten

/-- Quoted rendering of one string, as `json.dumps` emits it. -/
def jsonQuote (x : String) : List Char := '"' :: escStr x.data ++ ['"']

/-- Embeds `json.dumps` on a list of strings: escaped elements bracketed
and separated by a comma and one space. -/
def jsonDumpsStrList (xs : List String) : String :=
  match xs with
  | [] => "[]"
  | x :: rest =>
    ⟨'[' :: (jsonQuote x ++ (rest.map (fun y => ',' :: ' ' :: jsonQuote y)).flatten ++ [']'])⟩

/-- Decode of the two-character escapes. -/
def unescape? (e : Char) : Option Char :=
  if e = '"' then some '"'
  else if e = '\\' then some '\\'
  else if e = '/' then some '/'
  else if e = 'b' then some (Char.ofNat 8)
  else if e = 't' then some (Char.ofNat 9)
  else if e = 'n' then some (Char.ofNat 10)
  else if e = 'f' then some (Char.ofNat 12)
  else if e = 'r' then some (Char.ofNat 13)
  else none

/-- Four hex digits and the remaining input. -/
def hex4? : List Char → Option (Nat × List Char)
  | h1 :: h2 :: h3 :: h4 :: cs =>
    (hexVal? h1).bind (fun v1 =>
      (hexVal? h2).bind (fun v2 =>
        (hexVal? h3).bind (fun v3 =>
          (hexVal? h4).map (fun v4 =>
            (((v1 * 16 + v2) * 16 + v3) * 16 + v4, cs)))))
  | _ => none

/-- Continuation of a `\uXXXX` group whose value `v` is a surrogate: a
high surrogate must be followed by a low-surrogate group, the pair
building one astral code point; anything else, in particular a lone
surrogate, is rejected. -/
def surrogateCont? (v : Nat) : List Char → Option (Char × List Char)
  | b1 :: b2 :: rest =>
    if 56320 ≤ v then none
    else if b1 = '\\' ∧ b2 = 'u' then
      (hex4? rest).bind (fun wc =>
        if 56320 ≤ wc.1 ∧ wc.1 < 57344 then
          some (Char.ofNat (65536 + (v - 55296) * 1024 + (wc.1 - 56320)), wc.2)
        else none)
    else none
  | _ => none

/-- Decode one escape sequence, the backslash already consumed. -/
def escStep? : List Char → Option (Char × List Char)
  | [] => none
  | e :: cs2 =>
    if e = 'u' then
      (hex4? cs2).bind (fun vc =>
        if 55296 ≤ vc.1 ∧ vc.1 < 57344 then surrogateCont? vc.1 vc.2
        else some (Char.ofNat vc.1, vc.2))
    else (unescape? e).map (fun d => (d, cs2))

/-- Consume characters up to the closing quote, decoding escapes; the
fuel makes the function structurally recursive. -/
def takeQuotedAux : Nat → List Char → Option (List Char × List Char)
  | 0, _ => none
  | _ + 1, [] => none
  | fuel + 1, c :: cs1 =>
    if c = '"' then some ([], cs1)
    else if c = '\\' then
      (escStep? cs1).bind (fun dc =>
        (takeQuotedAux fuel dc.2).map (fun p => (dc.1 :: p.1, p.2)))
    else (takeQuotedAux fuel cs1).map (fun p => (c :: p.1, p.2))

/-- Consume a quoted JSON string body, the opening quote already read. -/
def takeQuoted (cs : List Char) : Option (List Char × List Char) :=
  takeQuotedAux (cs.length + 1) cs

/-- Parse the continuation after a completed array element: either the
closing bracket ending the input, or a comma, space and next quoted
element. -/
def parseTailAux : Nat → List Char → Option (List String)
  | 0, _ => none
  | fuel + 1, cs =>
    if cs = [']'] then some []
    else
      match cs with
      | c1 :: c2 :: c3 :: r =>
        if c1 = ',' ∧ c2 = ' ' ∧ c3 = '"' then
          (takeQuoted r).bind (fun p =>
            (parseTailAux fuel p.2).map (fun xs => (⟨p.1⟩ : String) :: xs))
        else none
      | _ => none

/-- Array-of-strings parse over the character list. -/
def parseArr : List Char → Option (List String)
  | c1 :: c2 :: r2 =>
    if c1 = '[' then
      if c2 = ']' ∧ r2 = [] then some []
      else if c2 = '"' then
        (takeQuoted r2).bind (fun p =>
          (parseTailAux (p.2.length + 1) p.2).map (fun xs => (⟨p.1⟩ : String) :: xs))
      else none
    else none
  | _ => none

/-- Embeds the `json.loads`-returns-a-list case on the stored fragment:
parse a JSON array of strings in the canonical `json.dumps` rendering. -/
def jsonParseStrList? (s : String) : Option (List String) :=
  parseArr s.data

/-- Embeds `_coerce_tags`: NULL becomes the empty list, a decoded list is
kept element-wise, text is JSON-parsed when possible and otherwise split
on commas into stripped non-empty tokens. -/
def coerce_tags (v : TagsCell) : List String :=
  match v with
  | .null => []
  | .pylist xs => xs
  | .text s =>
    match jsonParseStrList? s with
    | some xs => xs
    | none =>
      (splitComma s.data).filterMap (fun t =>
        if stripWs t = [] then none else some (⟨stripWs t⟩ : String))

theorem hexVal_hexChar : ∀ n, n < 16 → hexVal? (hexChar n) = some n := by decide

/-- Every Lean character is a valid scalar value: below the code-point
bound and never a surrogate. -/
theorem char_bounds (c : Char) :
    c.toNat < 1114112 ∧ ¬(55296 ≤ c.toNat ∧ c.toNat < 57344) := by
  have h := c.valid
  have he : c.toNat = c.val.toNat := rfl
  rw [he]
  rcases h with h | ⟨h1, h2⟩
  · exact ⟨by omega, by omega⟩
  · exact ⟨by omega, by omega⟩

theorem hex4_hexQuad (t : Nat) (h : t < 65536) (rest : List Char) :
    hex4? (hexQuad t ++ rest) = some (t, rest) := by
  show hex4? (hexChar (t / 4096 % 16) :: hexChar (t / 256 % 16) ::
    hexChar (t / 16 % 16) :: hexChar (t % 16) :: rest) = some (t, rest)
  rw [hex4?, hexVal_hexChar (t / 4096 % 16) (by omega), hexVal_hexChar (t / 256 % 16) (by omega),
    hexVal_hexChar (t / 16 % 16) (by omega), hexVal_hexChar (t % 16) (by omega)]
  show some ((((t / 4096 % 16) * 16 + t / 256 % 16) * 16 + t / 16 % 16) * 16 + t % 16, rest)
    = some (t, rest)
  have harith : (((t / 4096 % 16) * 16 + t / 256 % 16) * 16 + t / 16 % 16) * 16 + t % 16 = t := by
    omega
  rw [harith]

theorem escStep_unesc {e d : Char} (he : e ≠ 'u') (h : unescape? e = some d)
    (cs2 : List Char) : escStep? (e :: cs2) = some (d, cs2) := by
  rw [escStep?, if_neg he, h]
  rfl

theorem escStep_u_bmp (t : Nat) (h1 : t < 65536) (h2 : ¬(55296 ≤ t ∧ t < 57344))
    (rest : List Char) :
    escStep? ('u' :: (hexQuad t ++ rest)) = some (Char.ofNat t, rest) := by
  rw [escStep?, if_pos rfl, hex4_hexQuad t h1 rest]
  show (if 55296 ≤ t ∧ t < 57344 then surrogateCont? t rest
    else some (Char.ofNat t, rest)) = some (Char.ofNat t, rest)
  rw [if_neg h2]

theorem escStep_u_astral (t : Nat) (h1 : 65536 ≤ t) (h2 : t < 1114112) (rest : List Char) :
    escStep? ('u' :: (hexQuad (55296 + (t - 65536) / 1024) ++
      ('\\' :: 'u' :: (hexQuad (56320 + (t - 65536) % 1024) ++ rest)))) =
      some (Char.ofNat t, rest) := by
  have hq : (t - 65536) / 1024 < 1024 := by omega
  rw [escStep?, if_pos rfl, hex4_hexQuad (55296 + (t - 65536) / 1024) (by omega)]
  rw [Option.some_bind]
  show (if 55296 ≤ 55296 + (t - 65536) / 1024 ∧ 55296 + (t - 65536) / 1024 < 57344 then
      surrogateCont? (55296 + (t - 65536) / 1024)
        ('\\' :: 'u' :: (hexQuad (56320 + (t - 65536) % 1024) ++ rest))
    else some (Char.ofNat (55296 + (t - 65536) / 1024),
      '\\' :: 'u' :: (hexQuad (56320 + (t - 65536) % 1024) ++ rest))) =
    some (Char.ofNat t, rest)
  rw [if_pos (by omega : 55296 ≤ 55296 + (t - 65536) / 1024 ∧ 55296 + (t - 65536) / 1024 < 57344)]
  rw [surrogateCont?, if_neg (by omega), if_pos (by exact ⟨rfl, rfl⟩),
    hex4_hexQuad (56320 + (t - 65536) % 1024) (by omega), Option.some_bind]
  show (if 56320 ≤ 56320 + (t - 65536) % 1024 ∧ 56320 + (t - 65536) % 1024 < 57344 then
      some (Char.ofNat (65536 + (55296 + (t - 65536) / 1024 - 55296) * 1024 +
        (56320 + (t - 65536) % 1024 - 56320)), rest)
    else none) = some (Char.ofNat t, rest)
  rw [if_pos (by omega : 56320 ≤ 56320 + (t - 65536) % 1024 ∧ 56320 + (t - 65536) % 1024 < 57344)]
  have harith : 65536 + (55296 + (t - 65536) / 1024 - 55296) * 1024 +
      (56320 + (t - 65536) % 1024 - 56320) = t := by omega
  rw [harith]

theorem takeQuotedAux_quote (fuel : Nat) (rest : List Char) :
    takeQuotedAux (fuel + 1) ('"' :: rest) = some ([], rest) := by
  rw [takeQuotedAux, if_pos rfl]

theorem takeQuotedAux_plain (fuel : Nat) {c : Char} (cs1 : List Char)
    (h1 : c ≠ '"') (h2 : c ≠ '\\') :
    takeQuotedAux (fuel + 1) (c :: cs1) =
      (takeQuotedAux fuel cs1).map (fun p => (c :: p.1, p.2)) := by
  rw [takeQuotedAux, if_neg h1, if_neg h2]

theorem takeQuotedAux_esc (fuel : Nat) {cs1 : List Char} {d : Char} {cs2 : List Char}
    (h : escStep? cs1 = some (d, cs2)) :
    takeQuotedAux (fuel + 1) ('\\' :: cs1) =
      (takeQuotedAux fuel cs2).map (fun p => (d :: p.1, p.2)) := by
  rw [takeQuotedAux, if_neg (by decide), if_pos rfl, h]
  rfl

/-- Escaping one character and decoding it back is the identity, for
every Lean character (validity rules out surrogates). -/
theorem takeQuotedAux_escChar (fuel : Nat) (c : Char) (rest : List Char) :
    takeQuotedAux (fuel + 1) (escChar c ++ rest) =
      (takeQuotedAux fuel rest).map (fun p => (c :: p.1, p.2)) := by
  obtain ⟨hlt, hsur⟩ := char_bounds c
  by_cases h1 : c = '"'
  · subst h1
    rw [show escChar '"' = ['\\', '"'] from rfl,
      show (['\\', '"'] : List Char) ++ rest = '\\' :: '"' :: rest from rfl,
      takeQuotedAux_esc fuel (escStep_unesc (by decide) (show unescape? '\"' = some '\"' from rfl) rest)]
  · by_cases h2 : c = '\\'
    · subst h2
      rw [show escChar '\\' = ['\\', '\\'] from rfl,
        show (['\\', '\\'] : List Char) ++ rest = '\\' :: '\\' :: rest from rfl,
        takeQuotedAux_esc fuel (escStep_unesc (by decide) (show unescape? '\\' = some '\\' from rfl) rest)]
    · by_cases h3 : c.toNat = 8
      · rw [show escChar c = ['\\', 'b'] from by
            unfold escChar; rw [if_neg h1, if_neg h2, if_pos h3],
          show (['\\', 'b'] : List Char) ++ rest = '\\' :: 'b' :: rest from rfl,
          takeQuotedAux_esc fuel (escStep_unesc (by decide) (show unescape? 'b' = some (Char.ofNat 8) from rfl) rest),
          show Char.ofNat 8 = c from by rw [← h3, Char.ofNat_toNat]]
      · by_cases h4 : c.toNat = 9
        · rw [show escChar c = ['\\', 't'] from by
              unfold escChar; rw [if_neg h1, if_neg h2, if_neg h3, if_pos h4],
            show (['\\', 't'] : List Char) ++ rest = '\\' :: 't' :: rest from rfl,
            takeQuotedAux_esc fuel (escStep_unesc (by decide) (show unescape? 't' = some (Char.ofNat 9) from rfl) rest),
            show Char.ofNat 9 = c from by rw [← h4, Char.ofNat_toNat]]
        · by_cases h5 : c.toNat = 10
          · rw [show escChar c = ['\\', 'n'] from by
                unfold escChar; rw [if_neg h1, if_neg h2, if_neg h3, if_neg h4, if_pos h5],
              show (['\\', 'n'] : List Char) ++ rest = '\\' :: 'n' :: rest from rfl,
              takeQuotedAux_esc fuel (escStep_unesc (by decide) (show unescape? 'n' = some (Char.ofNat 10) from rfl) rest),
              show Char.ofNat 10 = c from by rw [← h5, Char.ofNat_toNat]]
          · by_cases h6 : c.toNat = 12
            · rw [show escChar c = ['\\', 'f'] from by
                  unfold escChar
                  rw [if_neg h1, if_neg h2, if_neg h3, if_neg h4, if_neg h5, if_pos h6],
                show (['\\', 'f'] : List Char) ++ rest = '\\' :: 'f' :: rest from rfl,
                takeQuotedAux_esc fuel (escStep_unesc (by decide) (show unescape? 'f' = some (Char.ofNat 12) from rfl) rest),
                show Char.ofNat 12 = c from by rw [← h6, Char.ofNat_toNat]]
            · by_cases h7 : c.toNat = 13
              · rw [show escChar c = ['\\', 'r'] from by
                    unfold escChar
                    rw [if_neg h1, if_neg h2, if_neg h3, if_neg h4, if_neg h5, if_neg h6,
                      if_pos h7],
                  show (['\\', 'r'] : List Char) ++ rest = '\\' :: 'r' :: rest from rfl,
                  takeQuotedAux_esc fuel (escStep_unesc (by decide) (show unescape? 'r' = some (Char.ofNat 13) from rfl) rest),
                  show Char.ofNat 13 = c from by rw [← h7, Char.ofNat_toNat]]
              · by_cases h8 : c.toNat < 32 ∨ (127 ≤ c.toNat ∧ c.toNat < 65536)
                · rw [show escChar c = '\\' :: 'u' :: hexQuad c.toNat from by
                      unfold escChar
                      rw [if_neg h1, if_neg h2, if_neg h3, if_neg h4, if_neg h5, if_neg h6,
                        if_neg h7, if_pos h8],
                    show ('\\' :: 'u' :: hexQuad c.toNat) ++ rest =
                      '\\' :: ('u' :: (hexQuad c.toNat ++ rest)) from by simp,
                    takeQuotedAux_esc fuel (escStep_u_bmp c.toNat
                      (by rcases h8 with h | ⟨ha, hb⟩ <;> omega) hsur rest),
                    Char.ofNat_toNat]
                · by_cases h9 : 65536 ≤ c.toNat
                  · rw [show escChar c =
                        ('\\' :: 'u' :: hexQuad (55296 + (c.toNat - 65536) / 1024)) ++
                          ('\\' :: 'u' :: hexQuad (56320 + (c.toNat - 65536) % 1024)) from by
                        unfold escChar
                        rw [if_neg h1, if_neg h2, if_neg h3, if_neg h4, if_neg h5, if_neg h6,
                          if_neg h7, if_neg h8, if_pos h9],
                      show (('\\' :: 'u' :: hexQuad (55296 + (c.toNat - 65536) / 1024)) ++
                          ('\\' :: 'u' :: hexQuad (56320 + (c.toNat - 65536) % 1024))) ++ rest =
                        '\\' :: ('u' :: (hexQuad (55296 + (c.toNat - 65536) / 1024) ++
                          ('\\' :: 'u' :: (hexQuad (56320 + (c.toNat - 65536) % 1024) ++ rest))))
                        from by simp [List.append_assoc],
                      takeQuotedAux_esc fuel (escStep_u_astral c.toNat h9 hlt rest),
                      Char.ofNat_toNat]
                  · rw [show escChar c = [c] from by
                        unfold escChar
                        rw [if_neg h1, if_neg h2, if_neg h3, if_neg h4, if_neg h5, if_neg h6,
                          if_neg h7, if_neg h8, if_neg h9],
                      show ([c] : List Char) ++ rest = c :: rest from rfl]
                    exact takeQuotedAux_plain fuel rest h1 h2

theorem takeQuotedAux_escStr : ∀ (x : List Char) (fuel : Nat) (rest : List Char),
    x.length < fuel → takeQuotedAux fuel (escStr x ++ '"' :: rest) = some (x, rest) := by
  intro x
  induction x with
  | nil =>
    intro fuel rest hlen
    cases fuel with
    | zero => omega
    | succ f =>
      show takeQuotedAux (f + 1) ('"' :: rest) = some ([], rest)
      exact takeQuotedAux_quote f rest
  | cons c cs ih =>
    intro fuel rest hlen
    cases fuel with
    | zero => simp at hlen
    | succ f =>
      have hshape : escStr (c :: cs) ++ '"' :: rest =
          escChar c ++ (escStr cs ++ '"' :: rest) := by
        simp [escStr, List.flatten_cons, List.append_assoc]
      rw [hshape, takeQuotedAux_escChar f c (escStr cs ++ '"' :: rest),
        ih f rest (by simp only [List.length_cons] at hlen; omega)]
      rfl

theorem escChar_length (c : Char) : 1 ≤ (escChar c).length := by
  unfold escChar
  split_ifs <;> simp

theorem escStr_length (l : List Char) : l.length ≤ (escStr l).length := by
  induction l with
  | nil => simp [escStr]
  | cons c cs ih =>
    have h1 := escChar_length c
    simp only [escStr, List.map_cons, List.flatten_cons, List.length_append,
      List.length_cons] at ih ⊢
    omega

/-- A JSON-escaped string followed by a closing quote is decoded back
exactly, for every Lean string, with the remaining input untouched. -/
theorem takeQuoted_append (x : List Char) (rest : List Char) :
    takeQuoted (escStr x ++ '"' :: rest) = some (x, rest) :=
  takeQuotedAux_escStr x ((escStr x ++ '"' :: rest).length + 1) rest (by
    have := escStr_length x
    simp only [List.length_append, List.length_cons]
    omega)

/-- Rendering of the list tail, as `jsonDumpsStrList` lays it out. -/
def tailChars (rest : List String) : List Char :=
  (rest.map (fun y => ',' :: ' ' :: jsonQuote y)).flatten ++ [']']

theorem parseTailAux_spec :
    ∀ (rest : List String) (fuel : Nat),
    (tailChars rest).length ≤ fuel → parseTailAux fuel (tailChars rest) = some rest := by
  intro rest
  induction rest with
  | nil =>
    intro fuel hlen
    have h1 : tailChars [] = [']'] := rfl
    cases fuel with
    | zero => rw [h1] at hlen; simp at hlen
    | succ f =>
      rw [h1, parseTailAux, if_pos rfl]
      intro c1 c2 c3 r h
      simp at h
  | cons y ys ih =>
    intro fuel hlen
    have htail : tailChars (y :: ys) =
        ',' :: ' ' :: '"' :: (escStr y.data ++ '"' :: tailChars ys) := by
      simp [tailChars, jsonQuote, List.flatten_cons, List.append_assoc]
    cases fuel with
    | zero => rw [htail] at hlen; simp at hlen
    | succ f =>
      have hlen2 : (tailChars ys).length ≤ f := by
        rw [htail] at hlen
        simp only [List.length_cons, List.length_append] at hlen
        omega
      have hrec : parseTailAux f (tailChars ys) = some ys := ih f hlen2
      rw [htail, parseTailAux,
        if_neg (by simp), if_pos ⟨rfl, rfl, rfl⟩,
        takeQuoted_append y.data (tailChars ys)]
      simp only [Option.some_bind, hrec, Option.map_some', Option.some.injEq]

theorem jsonParse_dumps : ∀ (xs : List String),
    jsonParseStrList? (jsonDumpsStrList xs) = some xs := by
  intro xs
  cases xs with
  | nil => rfl
  | cons x rest =>
    have hdata : (jsonDumpsStrList (x :: rest)).data =
        '[' :: '"' :: (escStr x.data ++ '"' :: tailChars rest) := by
      simp [jsonDumpsStrList, jsonQuote, tailChars, List.append_assoc]
    unfold jsonParseStrList?
    rw [hdata, parseArr, if_pos rfl, if_neg (by simp), if_pos rfl,
      takeQuoted_append x.data (tailChars rest)]
    simp only [Option.some_bind]
    rw [parseTailAux_spec rest ((tailChars rest).length + 1) (by omega)]
    simp only [Option.map_some', Option.some.injEq]

/-- Claim C10.  Tags surfaced by the read path are always a list of
strings, never null: a NULL column becomes the empty list, a decoded JSON
array is kept element-wise, a stored JSON array rendering — escapes
included — is parsed back to its elements, and a plain text value that is
not a stored array is split on commas into trimmed non-empty tokens. -/
theorem coerce_tags_C10 :
    coerce_tags .null = [] ∧
    (∀ xs : List String, coerce_tags (.pylist xs) = xs) ∧
    (∀ xs : List String, coerce_tags (.text (jsonDumpsStrList xs)) = xs) ∧
    (∀ s : String, jsonParseStrList? s = none →
      coerce_tags (.text s) =
        (((splitComma s.data).map stripWs).filter (· ≠ [])).map
          (fun u => (⟨u⟩ : String))) := by
  refine ⟨rfl, fun xs => rfl, ?_, ?_⟩
  · intro xs
    simp only [coerce_tags, jsonParse_dumps xs]
  · intro s hs
    simp only [coerce_tags, hs]
    induction splitComma s.data with
    | nil => rfl
    | cons t ts ih =>
      by_cases ht : stripWs t = []
      · simp [ht, ih]
      · simp [ht, ih]

/-- Witness for C10 at a stored array whose tags need escaping (a quote
and a backslash) and at a concrete plain string. -/
theorem coerce_tags_C10_witness :
    coerce_tags (.text (jsonDumpsStrList ["great-convo", "a\"b", "c\\d"])) =
      ["great-convo", "a\"b", "c\\d"] ∧
    coerce_tags (.text "alpha, ,beta") = ["alpha", "beta"] := by
  constructor
  · exact coerce_tags_C10.2.2.1 ["great-convo", "a\"b", "c\\d"]
  · rw [coerce_tags_C10.2.2.2 "alpha, ,beta" (by rfl)]
    decide

end Feedback

namespace Feedback

/-! ## Claims about the filter compiler (C1, C5, C6) -/

/-- On wildcard-free tokens the `JSON_SEARCH` OR-chain of the profile list
endpoint and the `JSON_OVERLAPS` condition of the stats and app endpoints
select the same rows. -/
theorem tagClause_agree (tags : Option String) (stored : Option (List String))
    (h : ∀ tok ∈ tagTokens tags, wildFree tok.data = true) :
    searchTagClause tags stored = overlapsTagClause tags stored := by
  unfold searchTagClause overlapsTagClause
  cases htoks : tagTokens tags with
  | nil => rfl
  | cons t ts =>
    cases stored with
    | none => simp [jsonSearchOne, jsonOverlaps]
    | some l =>
      rw [Bool.eq_iff_iff]
      simp only [jsonSearchOne, jsonOverlaps, List.any_eq_true, decide_eq_true_eq]
      constructor
      · rintro ⟨tok, htok, s, hs, hm⟩
        have hw := h tok (htoks ▸ htok)
        have heq := (likeMatch_wildFree hw s.data).mp hm
        exact ⟨s, hs, tok, htok, String.ext_iff.mpr heq.symm⟩
      · rintro ⟨s, hs, tok, htok, heq⟩
        have hw := h tok (htoks ▸ htok)
        exact ⟨tok, htok, s, hs,
          (likeMatch_wildFree hw s.data).mpr (String.ext_iff.mp heq.symm)⟩

/-- Row on which the two tag predicates disagree. -/
def c1Row : ProfileRow :=
  { id := "f1", created_at := 10, updated_at := 10,
    reviewer_profile_id := "u1", reviewee_profile_id := "u2", match_id := none,
    overall_experience := 5, would_meet_again := none, safety_feeling := none,
    respectfulness := none, headline := none, comment := none, tags := some ["ab"] }

/-- Counterexample to C1 as stated: for the parameter combination
(reviewee `"u2"`, no since, tags `"a%"`), accepted by both endpoints, the
list predicate (JSON_SEARCH treats the percent as a wildcard) selects the
row tagged `["ab"]` while the stats predicate (JSON_OVERLAPS compares for
equality) does not, so the two filtered sets differ. -/
theorem filter_divergence_C1_counterexample :
    profileListPredShared "u2" none (some "a%") c1Row = true ∧
    profileStatsPred "u2" none (some "a%") c1Row = false := by decide

/-- Claim C1 (amended): for every parameter combination accepted by both
the profile-feedback list endpoint and the profile-feedback stats endpoint
whose tag tokens are free of the LIKE wildcard and escape characters
(percent, underscore, backslash), the two predicates agree on every row,
and hence select identical filtered sets; tokens containing a wildcard
character break the equivalence, as the counterexample shows. -/
theorem filter_consistency_C1 :
    ∀ (reviewee : String) (since : Option Nat) (tags : Option String),
      (∀ tok ∈ tagTokens tags, wildFree tok.data = true) →
      (∀ r : ProfileRow, profileListPredShared reviewee since tags r =
        profileStatsPred reviewee since tags r) ∧
      (∀ db : List ProfileRow,
        db.filter (profileListPredShared reviewee since tags) =
          db.filter (profileStatsPred reviewee since tags)) := by
  intro reviewee since tags h
  have hpt : ∀ r : ProfileRow, profileListPredShared reviewee since tags r =
      profileStatsPred reviewee since tags r := by
    intro r
    unfold profileListPredShared profileStatsPred
    rw [tagClause_agree tags r.tags h]
  exact ⟨hpt, fun db => List.filter_congr (fun r _ => hpt r)⟩

/-- Witness for C1 at a concrete wildcard-free filter and row. -/
theorem filter_consistency_C1_witness :
    profileListPredShared "u2" none (some "ab,cd") c1Row =
      profileStatsPred "u2" none (some "ab,cd") c1Row :=
  (filter_consistency_C1 "u2" none (some "ab,cd") (by decide)).1 c1Row

/-- Counterexample to C5 as stated: the profile list tag predicate with
token `"x_"` (underscore is a LIKE wildcard inside JSON_SEARCH) matches a
row tagged `["xy"]`, although no stored tag equals any supplied token. -/
theorem tag_equality_divergence_C5_counterexample :
    searchTagClause (some "x_") (some ["xy"]) = true ∧
    ¬ (∃ t ∈ ["xy"], t ∈ parseTags "x_") := by decide

/-- Claim C5 (amended): the comma-separated tags string is tokenized by
trimming, discarding empty tokens and lower-casing; the app-side predicate
(JSON_OVERLAPS) matches exactly when some stored tag equals some token;
and the profile-side predicate (JSON_SEARCH chain) matches the same way
provided every token is free of the LIKE wildcard and escape characters —
a wildcard token makes it match non-equal tags, as the counterexample
shows. -/
theorem tag_filter_C5 :
    (∀ tags : String, parseTags tags = specTokens tags) ∧
    (∀ (tags : String) (stored : Option (List String)), tags ≠ "" →
      (overlapsTagClause (some tags) stored = true ↔
        (parseTags tags = [] ∨ ∃ t ∈ stored.getD [], t ∈ parseTags tags))) ∧
    (∀ (tags : String) (stored : Option (List String)), tags ≠ "" →
      (∀ tok ∈ parseTags tags, wildFree tok.data = true) →
      (searchTagClause (some tags) stored = true ↔
        (parseTags tags = [] ∨ ∃ t ∈ stored.getD [], t ∈ parseTags tags))) := by
  have htoks : ∀ tags : String, tags ≠ "" → tagTokens (some tags) = parseTags tags := by
    intro tags h
    rw [tagTokens, if_neg h]
  have hover : ∀ (tags : String) (stored : Option (List String)), tags ≠ "" →
      (overlapsTagClause (some tags) stored = true ↔
        (parseTags tags = [] ∨ ∃ t ∈ stored.getD [], t ∈ parseTags tags)) := by
    intro tags stored hne
    unfold overlapsTagClause
    rw [htoks tags hne]
    cases hp : parseTags tags with
    | nil => simp
    | cons t ts =>
      cases stored with
      | none =>
        simp [jsonOverlaps]
      | some l =>
        simp only [jsonOverlaps, List.any_eq_true, decide_eq_true_eq, Option.getD_some]
        constructor
        · rintro ⟨s, hs, tok, htok, heq⟩
          exact Or.inr ⟨s, hs, heq ▸ htok⟩
        · rintro (hcontra | ⟨s, hs, hsin⟩)
          · exact absurd hcontra (by simp)
          · exact ⟨s, hs, s, hsin, rfl⟩
  refine ⟨parseTags_eq_specTokens, hover, ?_⟩
  intro tags stored hne hw
  rw [show searchTagClause (some tags) stored = overlapsTagClause (some tags) stored from
    tagClause_agree (some tags) stored (by rw [htoks tags hne]; exact hw)]
  exact hover tags stored hne

/-- Witness for C5: the specification example, a resource tagged `{"a"}`
matches the filter `"a,b"` and not the filter `"c,d"`. -/
theorem tag_filter_C5_witness :
    searchTagClause (some "a,b") (some ["a"]) = true ∧
    searchTagClause (some "c,d") (some ["a"]) = false := by
  constructor
  · exact (tag_filter_C5.2.2 "a,b" (some ["a"]) (by decide) (by decide)).mpr
      (Or.inr ⟨"a", by decide, by decide⟩)
  · have h := tag_filter_C5.2.2 "c,d" (some ["a"]) (by decide) (by decide)
    exact Bool.eq_false_iff.mpr (fun hh => absurd (h.mp hh) (by decide))

/-- Counterexample to C6 as stated: the free-text filter with search
string `"a_c"` (underscore is a LIKE wildcard inside the percent-wrapped
pattern) matches the headline `"abc"`, although `"a_c"` is not a literal
substring of it. -/
theorem search_divergence_C6_counterexample :
    searchClause (some "a_c") (some "abc") none = true ∧
    specSearchMatches "a_c" (some "abc") none = false := by decide

/-- Claim C6 (amended): a resource matches the free-text filter exactly
when the lower-cased headline or lower-cased comment contains the
lower-cased search string as a literal substring, provided the lower-cased
search string is free of the LIKE wildcard and escape characters (percent,
underscore, backslash); search strings containing those characters are
matched as LIKE wildcards instead, as the counterexample shows. -/
theorem search_filter_C6 :
    ∀ (q : String) (headline comment : Option String),
      wildFree (toLowerChars q.data) = true →
      (searchClause (some q) headline comment = true ↔
        specSearchMatches q headline comment = true) := by
  intro q headline comment hw
  have hinf : ∀ subj : List Char,
      ((subj.tails.any (fun t => (toLowerChars q.data).isPrefixOf t)) = true ↔
        toLowerChars q.data <:+: subj) := by
    intro subj
    simp only [List.any_eq_true, List.mem_tails, List.isPrefixOf_iff_prefix]
    rw [List.infix_iff_prefix_suffix]
    constructor
    · rintro ⟨t, hts, hpt⟩; exact ⟨t, hpt, hts⟩
    · rintro ⟨t, hpt, hts⟩; exact ⟨t, hts, hpt⟩
  rw [searchClause]
  unfold specSearchMatches
  by_cases hq : q = ""
  · subst hq
    rw [if_pos rfl]
    simp only [true_iff]
    rw [Bool.or_eq_true, hinf, hinf]
    left
    show toLowerChars "".data <:+: toLowerChars (headline.getD "").data
    exact List.nil_infix
  · rw [if_neg hq, Bool.or_eq_true, Bool.or_eq_true,
      likeMatch_infix hw _, likeMatch_infix hw _, hinf _, hinf _]

/-- Witness for C6 at a concrete wildcard-free search string, matched
case-insensitively inside a headline. -/
theorem search_filter_C6_witness :
    (searchClause (some "abc") (some "xAbCy") none = true ↔
      specSearchMatches "abc" (some "xAbCy") none = true) ∧
    searchClause (some "abc") (some "xAbCy") none = true :=
  ⟨search_filter_C6 "abc" (some "xAbCy") none (by decide), by decide⟩

end Feedback

namespace Feedback

/-! ## Claims about the concurrency guard (C3, C4) -/

/-- The mutation step always ends in an ok outcome carrying the resulting
row together with the fingerprint of exactly that row. -/
theorem applyAppUpdate_spec (row : AppRow) (payload : AppPatch) (now : Nat) :
    ∃ r, applyAppUpdate row payload now = (some r, .ok r (make_etag r.id r.updated_at)) := by
  unfold applyAppUpdate
  by_cases hp : payload.hasFields
  · rw [if_pos hp]; exact ⟨_, rfl⟩
  · rw [if_neg hp]; exact ⟨row, rfl⟩

/-- Claim C3.  Conditional update of an existing app-feedback resource:
a truthy non-wildcard If-Match list not containing the current fingerprint
is rejected with precondition-failed and the stored row is untouched (no
mutation happens); a wildcard If-Match always passes; an absent If-Match
skips the check entirely (it behaves exactly as the wildcard and always
reaches the mutation step); and every ok outcome carries the fingerprint
of the resulting row, the no-op update included. -/
theorem conditional_update_C3 :
    (∀ (row : AppRow) (h : String) (payload : AppPatch) (now : Nat),
      h ≠ "" → stripWs h.data ≠ ['*'] →
      make_etag row.id row.updated_at ∉ parse_etag_header (some h) →
      update_app_feedback (some row) (some h) payload now = (some row, .precondFailed)) ∧
    (∀ (row : AppRow) (payload : AppPatch) (now : Nat),
      ∃ r e, (update_app_feedback (some row) (some "*") payload now).2 = .ok r e) ∧
    (∀ (row : AppRow) (payload : AppPatch) (now : Nat),
      update_app_feedback (some row) none payload now =
        update_app_feedback (some row) (some "*") payload now ∧
      ∃ r e, (update_app_feedback (some row) none payload now).2 = .ok r e) ∧
    (∀ (db : Option AppRow) (ifm : Option String) (payload : AppPatch) (now : Nat)
      (r : AppRow) (e : String),
      (update_app_feedback db ifm payload now).2 = .ok r e →
      e = make_etag r.id r.updated_at ∧
        (update_app_feedback db ifm payload now).1 = some r) := by
  have hstar : ∀ current : String, ifMatchFails (some "*") current = false := by
    intro current
    have h2 : decide (stripWs "*".data ≠ ['*']) = false := by decide
    rw [ifMatchFails, h2]
    simp
  refine ⟨?_, ?_, ?_, ?_⟩
  · intro row h payload now hne hst hmem
    have hc : ((parse_etag_header (some h)).contains (make_etag row.id row.updated_at))
        = false := by
      rw [Bool.eq_false_iff]
      intro hcontra
      exact hmem (List.elem_iff.mp hcontra)
    have hcf : ifMatchFails (some h) (make_etag row.id row.updated_at) = true := by
      rw [ifMatchFails, hc]
      simp [hne, hst]
    rw [update_app_feedback, if_pos hcf]
  · intro row payload now
    obtain ⟨r, hr⟩ := applyAppUpdate_spec row payload now
    exact ⟨r, make_etag r.id r.updated_at, by
      rw [update_app_feedback, if_neg (by simp [hstar]), hr]⟩
  · intro row payload now
    have hnone : ∀ current : String, ifMatchFails none current = false := fun _ => rfl
    constructor
    · rw [update_app_feedback, update_app_feedback,
        if_neg (by simp [hnone]), if_neg (by simp [hstar])]
    · obtain ⟨r, hr⟩ := applyAppUpdate_spec row payload now
      exact ⟨r, make_etag r.id r.updated_at, by
        rw [update_app_feedback, if_neg (by simp [hnone]), hr]⟩
  · intro db ifm payload now r e h
    cases db with
    | none =>
      rw [update_app_feedback] at h
      simp at h
    | some row =>
      rw [update_app_feedback] at h ⊢
      by_cases hcf : ifMatchFails ifm (make_etag row.id row.updated_at) = true
      · rw [if_pos hcf] at h
        simp at h
      · rw [if_neg hcf] at h ⊢
        obtain ⟨r2, hr2⟩ := applyAppUpdate_spec row payload now
        rw [hr2] at h ⊢
        have h2 : UpdateOutcome.ok r2 (make_etag r2.id r2.updated_at) = .ok r e := h
        injection h2 with h3 h4
        subst h3
        subst h4
        exact ⟨rfl, rfl⟩

/-- Row used to instantiate the precondition-failure branch. -/
def c3Row : AppRow :=
  { id := "a1", created_at := 1, updated_at := 5, author_profile_id := none,
    overall := 4, usability := none, reliability := none, performance := none,
    support_experience := none, headline := none, comment := none, tags := none }

/-- Witness for C3: a concrete stale fingerprint is rejected with the
row unchanged. -/
theorem conditional_update_C3_witness :
    update_app_feedback (some c3Row) (some "xyz") ({} : AppPatch) 9 =
      (some c3Row, .precondFailed) :=
  conditional_update_C3.1 c3Row "xyz" ({} : AppPatch) 9 (by decide) (by decide) (by decide)

/-- Row used to exhibit the no-op update. -/
def c4Row : AppRow :=
  { id := "a9", created_at := 1, updated_at := 5, author_profile_id := none,
    overall := 4, usability := none, reliability := none, performance := none,
    support_experience := none, headline := none, comment := none, tags := none }

/-- Counterexample to C4 as stated: an accepted partial update whose body
supplies no fields is a no-op — the stored row keeps `updated_at = 5`, and
the response fingerprint equals the fingerprint before the call, so the
update timestamp does not advance and the fingerprint does not change. -/
theorem noop_update_C4_counterexample :
    update_app_feedback (some c4Row) none ({} : AppPatch) 9 =
      (some c4Row, .ok c4Row (make_etag c4Row.id c4Row.updated_at)) ∧
    c4Row.updated_at = 5 ∧ (9 : Nat) ≠ 5 := by
  refine ⟨rfl, rfl, by decide⟩

/-- Claim C4 (amended): an accepted partial update that supplies at least
one field stamps the update timestamp with the write clock `now` and keeps
the identity; whenever the write clock is ahead of the stored timestamp
(as a monotonic storage clock guarantees) the update timestamp strictly
advances and the fingerprint after the update differs from the one before
it.  An update supplying no fields is a no-op that changes neither, as the
counterexample shows. -/
theorem update_timestamp_C4 :
    (∀ (row : AppRow) (ifm : Option String) (payload : AppPatch) (now : Nat)
      (r : AppRow) (e : String),
      payload.hasFields = true →
      (update_app_feedback (some row) ifm payload now).2 = .ok r e →
      r.updated_at = now ∧ r.id = row.id ∧
        (row.updated_at < now →
          row.updated_at < r.updated_at ∧
          make_etag r.id r.updated_at ≠ make_etag row.id row.updated_at)) ∧
    (∀ (row : ProfileRow) (payload : ProfilePatch) (now : Nat) (r : ProfileRow),
      payload.hasFields = true →
      (update_profile_feedback (some row) payload now).2 = .ok r →
      r.updated_at = now ∧ r.id = row.id ∧
        (row.updated_at < now →
          row.updated_at < r.updated_at ∧
          make_etag r.id r.updated_at ≠ make_etag row.id row.updated_at)) := by
  constructor
  · intro row ifm payload now r e hp h
    rw [update_app_feedback] at h
    by_cases hcf : ifMatchFails ifm (make_etag row.id row.updated_at) = true
    · rw [if_pos hcf] at h
      simp at h
    · rw [if_neg hcf] at h
      rw [show applyAppUpdate row payload now =
          (some (applyAppPatch row payload now),
            .ok (applyAppPatch row payload now)
              (make_etag (applyAppPatch row payload now).id
                (applyAppPatch row payload now).updated_at)) from by
        unfold applyAppUpdate; rw [if_pos hp]] at h
      have h2 : UpdateOutcome.ok (applyAppPatch row payload now)
          (make_etag (applyAppPatch row payload now).id
            (applyAppPatch row payload now).updated_at) = .ok r e := h
      injection h2 with h3 h4
      subst h3
      refine ⟨rfl, rfl, ?_⟩
      intro hlt
      refine ⟨hlt, ?_⟩
      intro hcontra
      have : now = row.updated_at := make_etag_inj hcontra
      omega
  · intro row payload now r hp h
    rw [update_profile_feedback, if_pos hp] at h
    have h2 : Except.ok (ε := ApiError) (applyProfilePatch row payload now) = .ok r := h
    injection h2 with h3
    subst h3
    refine ⟨rfl, rfl, ?_⟩
    intro hlt
    refine ⟨hlt, ?_⟩
    intro hcontra
    have : now = row.updated_at := make_etag_inj hcontra
    omega

/-- Row used to instantiate the amended C4. -/
def c4RowB : AppRow :=
  { id := "b2", created_at := 1, updated_at := 5, author_profile_id := none,
    overall := 4, usability := none, reliability := none, performance := none,
    support_experience := none, headline := none, comment := none, tags := none }

/-- Witness for C4: a one-field update at write clock 9 over a row stamped
5 yields a different fingerprint. -/
theorem update_timestamp_C4_witness :
    make_etag (applyAppPatch c4RowB ({ overall := some 3 } : AppPatch) 9).id
        (applyAppPatch c4RowB ({ overall := some 3 } : AppPatch) 9).updated_at ≠
      make_etag c4RowB.id c4RowB.updated_at :=
  ((update_timestamp_C4.1 c4RowB none ({ overall := some 3 } : AppPatch) 9
    (applyAppPatch c4RowB ({ overall := some 3 } : AppPatch) 9)
    (make_etag (applyAppPatch c4RowB ({ overall := some 3 } : AppPatch) 9).id
      (applyAppPatch c4RowB ({ overall := some 3 } : AppPatch) 9).updated_at)
    (by decide) rfl).2.2 (by decide)).2

end Feedback

namespace Feedback

/-! ## Claims about the pagination controller (C7, C8) and the
aggregation engine (C9) -/

/-- Claim C7.  For every list request (on either endpoint), a next cursor
is produced exactly when the page holds as many rows as the limit; the
page never exceeds the limit; and a produced cursor decodes back to the
effective offset plus the returned count. -/
theorem next_cursor_C7 :
    (∀ (db : List ProfileRow) (p : ProfileListParams) (off : Int) (res : ProfileListResult),
      decode_cursor p.cursor = .ok off →
      list_profile_feedback db p = .ok res →
      res.count ≤ p.limit ∧
      (res.next_cursor.isSome ↔ res.count = p.limit) ∧
      (∀ c, res.next_cursor = some c →
        decode_cursor (some c) = .ok (off + (res.count : Int)))) ∧
    (∀ (db : List AppRow) (p : AppListParams) (res : AppListResult),
      list_app_feedback db p = .ok res →
      res.count ≤ p.limit ∧
      (res.next_cursor.isSome ↔ res.count = p.limit) ∧
      (∀ c, res.next_cursor = some c →
        decode_cursor (some c) = .ok ((res.offset + res.count : Nat) : Int))) := by
  constructor
  · intro db p off res hdec hres
    simp only [list_profile_feedback, hdec] at hres
    by_cases hoff : off < 0
    · rw [if_pos hoff] at hres
      exact absurd hres (by simp)
    · rw [if_neg hoff] at hres
      simp only [Except.ok.injEq] at hres
      subst hres
      refine ⟨?_, ?_, ?_⟩
      · show ((sortLe (profileOrderLe p.sort p.order)
          (db.filter (profileRowPred p))).drop off.toNat |>.take p.limit).length ≤ p.limit
        rw [List.length_take]
        exact min_le_left _ _
      · by_cases hlen : ((sortLe (profileOrderLe p.sort p.order)
            (db.filter (profileRowPred p))).drop off.toNat |>.take p.limit).length = p.limit
        · simp [hlen]
        · simp [hlen]
      · intro c hc
        have hc2 : (if ((sortLe (profileOrderLe p.sort p.order)
              (db.filter (profileRowPred p))).drop off.toNat |>.take p.limit).length = p.limit
            then some (encode_cursor (off.toNat + ((sortLe (profileOrderLe p.sort p.order)
              (db.filter (profileRowPred p))).drop off.toNat |>.take p.limit).length))
            else none) = some c := hc
        by_cases hlen : ((sortLe (profileOrderLe p.sort p.order)
            (db.filter (profileRowPred p))).drop off.toNat |>.take p.limit).length = p.limit
        · rw [if_pos hlen] at hc2
          injection hc2 with hc3
          subst hc3
          rw [decode_encode_cursor]
          simp only [Except.ok.injEq]
          omega
        · rw [if_neg hlen] at hc2
          exact absurd hc2 (by simp)
  · intro db p res hres
    rcases hd : appEffectiveOffset p with e | off
    · simp only [list_app_feedback, hd] at hres
      exact absurd hres (by simp)
    · simp only [list_app_feedback, hd] at hres
      by_cases hoff : off < 0
      · rw [if_pos hoff] at hres
        exact absurd hres (by simp)
      · rw [if_neg hoff] at hres
        simp only [Except.ok.injEq] at hres
        subst hres
        refine ⟨?_, ?_, ?_⟩
        · show ((sortLe (appOrderLe p.sort p.order)
            (db.filter (appRowPred p))).drop off.toNat |>.take p.limit).length ≤ p.limit
          rw [List.length_take]
          exact min_le_left _ _
        · by_cases hlen : ((sortLe (appOrderLe p.sort p.order)
              (db.filter (appRowPred p))).drop off.toNat |>.take p.limit).length = p.limit
          · simp [hlen]
          · simp [hlen]
        · intro c hc
          have hc2 : (if ((sortLe (appOrderLe p.sort p.order)
                (db.filter (appRowPred p))).drop off.toNat |>.take p.limit).length = p.limit
              then some (encode_cursor (off.toNat + ((sortLe (appOrderLe p.sort p.order)
                (db.filter (appRowPred p))).drop off.toNat |>.take p.limit).length))
              else none) = some c := hc
          by_cases hlen : ((sortLe (appOrderLe p.sort p.order)
              (db.filter (appRowPred p))).drop off.toNat |>.take p.limit).length = p.limit
          · rw [if_pos hlen] at hc2
            injection hc2 with hc3
            subst hc3
            rw [decode_encode_cursor]
          · rw [if_neg hlen] at hc2
            exact absurd hc2 (by simp)

/-- Rows for the C7 witness. -/
def c7Row : ProfileRow :=
  { id := "r1", created_at := 2, updated_at := 2, reviewer_profile_id := "u1",
    reviewee_profile_id := "u2", match_id := none, overall_experience := 3,
    would_meet_again := none, safety_feeling := none, respectfulness := none,
    headline := none, comment := none, tags := none }

/-- Result of the C7 witness request. -/
def c7Res : ProfileListResult :=
  { items := [c7Row], next_cursor := some (encode_cursor 1), count := 1 }

/-- Witness for C7: a full page of one row at limit one produces a next
cursor that decodes to offset 0 + 1. -/
theorem next_cursor_C7_witness :
    decode_cursor (some (encode_cursor 1)) = .ok ((0 : Int) + (c7Res.count : Int)) :=
  (next_cursor_C7.1 [c7Row] { limit := 1 } 0 c7Res rfl rfl).2.2 (encode_cursor 1) rfl

/-- Claim C8.  The app-feedback listing reports an exact total over the
same predicate as the page fetch, derives has_next from
offset + count < total and has_previous from offset > 0, and when
has_previous holds the previous offset is max(offset - limit, 0). -/
theorem pagination_totals_C8 :
    ∀ (db : List AppRow) (p : AppListParams) (res : AppListResult),
      list_app_feedback db p = .ok res →
      res.total = (db.filter (appRowPred p)).length ∧
      (res.has_next = true ↔ res.offset + res.count < res.total) ∧
      (res.has_previous = true ↔ 0 < res.offset) ∧
      (res.has_previous = true →
        res.previous_offset = some (res.offset - p.limit) ∧
        ((res.offset - p.limit : Nat) : Int) = max ((res.offset : Int) - (p.limit : Int)) 0) := by
  intro db p res hres
  rcases hd : appEffectiveOffset p with e | off
  · simp only [list_app_feedback, hd] at hres
    exact absurd hres (by simp)
  · simp only [list_app_feedback, hd] at hres
    by_cases hoff : off < 0
    · rw [if_pos hoff] at hres
      exact absurd hres (by simp)
    · rw [if_neg hoff] at hres
      simp only [Except.ok.injEq] at hres
      subst hres
      refine ⟨rfl, ?_, ?_, ?_⟩
      · exact decide_eq_true_iff
      · exact decide_eq_true_iff
      · intro hprev
        have hpos : 0 < off.toNat := by
          have : decide (0 < off.toNat) = true := hprev
          rwa [decide_eq_true_eq] at this
        constructor
        · show (if 0 < off.toNat then some (off.toNat - p.limit) else none) = _
          rw [if_pos hpos]
        · omega

/-- Rows and result for the C8 witness. -/
def c8RowA : AppRow :=
  { id := "x1", created_at := 1, updated_at := 1, author_profile_id := none,
    overall := 2, usability := none, reliability := none, performance := none,
    support_experience := none, headline := none, comment := none, tags := none }

def c8RowB : AppRow :=
  { id := "x2", created_at := 2, updated_at := 2, author_profile_id := none,
    overall := 5, usability := none, reliability := none, performance := none,
    support_experience := none, headline := none, comment := none, tags := none }

def c8Res : AppListResult :=
  { items := [c8RowA], next_cursor := some (encode_cursor 2), count := 1,
    limit := 1, offset := 1, total := 2, has_next := false, has_previous := true,
    next_offset := none, previous_offset := some 0 }

/-- Witness for C8: the second page of a two-row set at limit one has a
previous offset of max(1 - 1, 0) = 0. -/
theorem pagination_totals_C8_witness :
    c8Res.previous_offset = some (c8Res.offset - ({ limit := 1, offset := 1 } : AppListParams).limit) ∧
    ((c8Res.offset - ({ limit := 1, offset := 1 } : AppListParams).limit : Nat) : Int) =
      max ((c8Res.offset : Int) - (({ limit := 1, offset := 1 } : AppListParams).limit : Int)) 0 :=
  (pagination_totals_C8 [c8RowA, c8RowB] { limit := 1, offset := 1 } c8Res rfl).2.2.2 (by decide)

/-- Claim C9.  A stats request whose filtered population is empty returns
count zero, null means (overall and every facet), the dense all-zero
histogram over ratings one to five, and an empty tag ranking — and the
tag-ranking query is not executed (the second component of the embedded
stats call records that). -/
theorem zero_stats_C9 :
    (∀ (db : List ProfileRow) (reviewee : String) (tags : Option String) (since : Option Nat),
      db.filter (profileStatsPred reviewee since tags) = [] →
      profile_feedback_stats db reviewee tags since =
        ({ count_total := 0, avg_overall_experience := none,
           distribution_overall_experience := [("1", 0), ("2", 0), ("3", 0), ("4", 0), ("5", 0)],
           avg_safety := none, avg_respect := none, top_tags := [] }, false)) ∧
    (∀ (db : List AppRow) (tags : Option String) (since : Option Nat),
      db.filter (appStatsPred since tags) = [] →
      app_feedback_stats db tags since =
        ({ count_total := 0, avg_overall := none,
           distribution_overall := [("1", 0), ("2", 0), ("3", 0), ("4", 0), ("5", 0)],
           avg_usability := none, avg_reliability := none, avg_performance := none,
           avg_support := none, top_tags := [] }, false)) := by
  constructor
  · intro db reviewee tags since hfil
    simp [profile_feedback_stats, hfil]
  · intro db tags since hfil
    simp [app_feedback_stats, hfil]

/-- Row outside the filtered population for the C9 witness. -/
def c9Row : ProfileRow :=
  { id := "p1", created_at := 3, updated_at := 3, reviewer_profile_id := "u1",
    reviewee_profile_id := "u2", match_id := none, overall_experience := 4,
    would_meet_again := none, safety_feeling := none, respectfulness := none,
    headline := none, comment := none, tags := none }

/-- Witness for C9: stats scoped to a reviewee with no rows short-circuit
to the zero shape without running the tag-ranking query. -/
theorem zero_stats_C9_witness :
    profile_feedback_stats [c9Row] "nobody" none none =
      ({ count_total := 0, avg_overall_experience := none,
         distribution_overall_experience := [("1", 0), ("2", 0), ("3", 0), ("4", 0), ("5", 0)],
         avg_safety := none, avg_respect := none, top_tags := [] }, false) :=
  zero_stats_C9.1 [c9Row] "nobody" none none (by decide)

end Feedback
